import Mathlib

/-!
Shallow embedding of the Physics-club Scoring & XP Ledger module
(`src/lib/xpSystem.ts`) and the theorems checking its specification.

The relational store is embedded as explicit lists of rows; each prisma
call of the source becomes a pure list operation on that state.  The
JavaScript number arithmetic of the score formulas is embedded as exact
arithmetic: the decay weights (powers of `0.8`) are rationals and the
two-exponential curve is real-valued via `Real.exp`; `Math.floor` is
`Int.floor` and `Math.round` is `⌊x + 1/2⌋`.  Fallible operations
(`throw new Error(...)`) return `Except XpErr`; an operation that throws
performs no write, exactly as in the source, where every `throw` happens
before the first write of the operation.  `new Date()` timestamps
(`finalizedAt`) carry no scoring information and are omitted.
-/

namespace XpSystem

/-- A row of the `User` table: internal primary key `id`, the external
(Discord) id, and the XP balance. -/
@[ext]
structure User where
  id : String
  discordId : String
  xp : Int
deriving DecidableEq

/-- A row of the `Problem` table. -/
@[ext]
structure Problem where
  id : String
  number : String
  originalBaseScore : Int
  baseScore : Int
  attempts : Int
  solves : Int
  isFinalized : Bool
deriving DecidableEq

/-- A row of the `UserAttempt` table (one per (user, problem) pair). -/
@[ext]
structure UserAttempt where
  id : String
  userId : String
  problemId : String
  attempts : Int
  solved : Bool
  awardedXp : Int
  preFinalizeAwardedXp : Option Int
  finalizeDelta : Int
deriving DecidableEq

/-- The database state: the three tables, plus counters generating the
fresh primary keys that prisma's id generator supplies in the source. -/
@[ext]
structure DB where
  users : List User
  problems : List Problem
  attempts : List UserAttempt
  nextUserId : Nat
  nextProblemId : Nat
  nextAttemptId : Nat
deriving DecidableEq

/-- Result type of `recordAttempt` (source type `AttemptResult`). -/
structure AttemptResult where
  awardedXP : Int
  userXP : Int
  attemptNumber : Int
  totalProblemAttempts : Int
  totalProblemSolves : Int
  weightedSolves : ℚ
  originalBaseScore : Int
  currentBaseScore : Int
deriving DecidableEq

/-- Result type of `resetProblemStats` (source type `ResetProblemResult`). -/
structure ResetProblemResult where
  problemNumber : String
  clearedUserAttempts : Int
  originalBaseScore : Int
  currentBaseScore : Int
deriving DecidableEq

/-- Result type of `finalizeProblemScoring` (source type `FinalizeProblemResult`). -/
structure FinalizeProblemResult where
  problemNumber : String
  finalBaseScore : Int
  weightedSolves : ℚ
  adjustedUsers : Int
  initializedUsers : Int
deriving DecidableEq

/-- Result type of `unfinalizeProblemScoring` (source type `UnfinalizeProblemResult`). -/
structure UnfinalizeProblemResult where
  problemNumber : String
  restoredBaseScore : Int
  revertedUsers : Int
deriving DecidableEq

/-- The error taxonomy of the module's `throw new Error(...)` sites, with
the names the specification gives them. -/
inductive XpErr where
  | notFound (msg : String)
  | alreadyFinalized (msg : String)
  | notFinalized (msg : String)
  | finalizedProblem (msg : String)
  | sheetMissing (msg : String)
deriving DecidableEq

/-- `const SCORE_DECAY = 0.8`. -/
def SCORE_DECAY : ℚ := 0.8

/-- `const MAX_WRONG_ATTEMPTS = 5`. -/
def MAX_WRONG_ATTEMPTS : Int := 5

/-- `const MIN_DYNAMIC_BASE_SCORE = 25`. -/
def MIN_DYNAMIC_BASE_SCORE : Int := 25

/-- `const CURVE_A1 = 8.90125` (kept as an exact rational, cast to ℝ in the curve). -/
def CURVE_A1 : ℚ := 8.90125

/-- `const CURVE_a1 = -0.0279323`. -/
def CURVE_a1 : ℚ := -0.0279323

/-- `const CURVE_B1 = 24.6239`. -/
def CURVE_B1 : ℚ := 24.6239

/-- `const CURVE_b1 = -0.402639`. -/
def CURVE_b1 : ℚ := -0.402639

/-- `getWrongAttempts`: `Math.max(0, Math.min(MAX_WRONG_ATTEMPTS, attempts - 1))`. -/
def getWrongAttempts (attempts : Int) : Int :=
  max 0 (min MAX_WRONG_ATTEMPTS (attempts - 1))

/-- `getSolveWeight`: `Math.pow(SCORE_DECAY, getWrongAttempts(attempts))`.
The exponent is an integer in `[0, 5]`, so the power is exact in ℚ. -/
def getSolveWeight (attempts : Int) : ℚ :=
  SCORE_DECAY ^ (getWrongAttempts attempts).toNat

/-- JavaScript `Math.round x = ⌊x + 1/2⌋` (round half up). -/
noncomputable def jsRound (x : ℝ) : Int := ⌊x + 1/2⌋

/-- `getDynamicBaseFromWeightedSolves`: the two-exponential curve,
clamped below by `MIN_DYNAMIC_BASE_SCORE`. -/
noncomputable def getDynamicBaseFromWeightedSolves (weightedSolves : ℚ) : Int :=
  let curved : ℝ :=
    (CURVE_A1 : ℝ) * Real.exp ((CURVE_a1 : ℝ) * (weightedSolves : ℝ)) +
    (CURVE_B1 : ℝ) * Real.exp ((CURVE_b1 : ℝ) * (weightedSolves : ℝ))
  max MIN_DYNAMIC_BASE_SCORE (jsRound curved)

/-- `getWeightedSolves(problemId)`: sum of solve weights over the solved
`UserAttempt` rows of the problem. -/
def getWeightedSolves (problemId : String) (db : DB) : ℚ :=
  ((db.attempts.filter (fun a => a.problemId == problemId && a.solved)).map
    (fun a => getSolveWeight a.attempts)).sum

/-- `adjustUserXPByDbId(userId, delta)`: the internal-key ledger
adjustment.  A zero delta is a no-op; a missing user makes the function
return with no write (`if (!user) return;`); otherwise the balance is
clamped at zero.  The source function throws on no path. -/
def adjustUserXPByDbId (userId : String) (delta : Int) (db : DB) : DB :=
  if delta = 0 then db
  else
    match db.users.find? (fun u => u.id == userId) with
    | none => db
    | some user =>
      let newXP := max 0 (user.xp + delta)
      { db with
          users := db.users.map (fun u => if u.id == userId then { u with xp := newXP } else u) }

/-- `getOrCreateUser(discordId)`: fetch by external id, creating the row
with `xp = 0` when absent. -/
def getOrCreateUser (discordId : String) (db : DB) : User × DB :=
  match db.users.find? (fun u => u.discordId == discordId) with
  | some u => (u, db)
  | none =>
    let u : User := { id := "u" ++ toString db.nextUserId, discordId := discordId, xp := 0 }
    (u, { db with users := db.users ++ [u], nextUserId := db.nextUserId + 1 })

/-- `addXP(discordId, amount)`: create-or-fetch the user, clamp the new
balance at zero, write it, and return the new total. -/
def addXP (discordId : String) (amount : Int) (db : DB) : Int × DB :=
  let fetched := getOrCreateUser discordId db
  let newXP := max 0 (fetched.1.xp + amount)
  let db1 : DB := { fetched.2 with
    users := fetched.2.users.map (fun u => if u.discordId == discordId then { u with xp := newXP } else u) }
  (newXP, db1)

/-- `removeXP(discordId, amount)`: like `addXP` with the amount subtracted. -/
def removeXP (discordId : String) (amount : Int) (db : DB) : Int × DB :=
  let fetched := getOrCreateUser discordId db
  let newXP := max 0 (fetched.1.xp - amount)
  let db1 : DB := { fetched.2 with
    users := fetched.2.users.map (fun u => if u.discordId == discordId then { u with xp := newXP } else u) }
  (newXP, db1)

/-- `resetProblemStats(problemNumber)`: delete the problem's
`UserAttempt` rows and reset its counters and base score. -/
def resetProblemStats (problemNumber : String) (db : DB) :
    Except XpErr (ResetProblemResult × DB) :=
  match db.problems.find? (fun p => p.number == problemNumber) with
  | none => .error (.notFound problemNumber)
  | some problem =>
    let remaining := db.attempts.filter (fun a => !(a.problemId == problem.id))
    let clearedCount : Int := db.attempts.length - remaining.length
    let resetBaseScore :=
      if problem.originalBaseScore > 0 then problem.originalBaseScore else problem.baseScore
    let updated : Problem := { problem with attempts := 0, solves := 0, baseScore := resetBaseScore }
    let db1 : DB := { db with
      attempts := remaining,
      problems := db.problems.map (fun p => if p.id == problem.id then
        { p with attempts := 0, solves := 0, baseScore := resetBaseScore } else p) }
    .ok ({ problemNumber := updated.number, clearedUserAttempts := clearedCount,
           originalBaseScore := updated.originalBaseScore,
           currentBaseScore := updated.baseScore }, db1)

/-- The loop body of `finalizeProblemScoring`: one solved row is
re-priced against the frozen score, the solver's ledger is adjusted when
the delta is non-zero and the baseline is non-zero, and the row's
snapshot fields are written.  The accumulator carries the database and
the `adjustedUsers` / `initializedUsers` counters. -/
noncomputable def finalizeStep (finalBaseScore : Int) (acc : DB × Int × Int)
    (attempt : UserAttempt) : DB × Int × Int :=
  let baselineAward := attempt.preFinalizeAwardedXp.getD attempt.awardedXp
  let finalAward : Int := ⌊(finalBaseScore : ℚ) * getSolveWeight attempt.attempts⌋
  let adjusted :=
    if baselineAward = 0 then (0, acc.1, acc.2.1, acc.2.2 + 1)
    else
      let delta := finalAward - baselineAward
      if delta ≠ 0 then (delta, adjustUserXPByDbId attempt.userId delta acc.1, acc.2.1 + 1, acc.2.2)
      else (delta, acc.1, acc.2.1, acc.2.2)
  let db2 : DB := { adjusted.2.1 with
      attempts := adjusted.2.1.attempts.map (fun a => if a.id == attempt.id then
        { a with preFinalizeAwardedXp := some baselineAward, awardedXp := finalAward,
                 finalizeDelta := adjusted.1 } else a) }
  (db2, adjusted.2.2.1, adjusted.2.2.2)

/-- `finalizeProblemScoring(problemNumber)`: freeze the problem's score
and re-price every solved row against it. -/
noncomputable def finalizeProblemScoring (problemNumber : String) (db : DB) :
    Except XpErr (FinalizeProblemResult × DB) :=
  match db.problems.find? (fun p => p.number == problemNumber) with
  | none => .error (.notFound problemNumber)
  | some problem =>
    if problem.isFinalized then .error (.alreadyFinalized problemNumber)
    else
      let solvedAttempts := db.attempts.filter (fun a => a.problemId == problem.id && a.solved)
      let weightedSolves := (solvedAttempts.map (fun a => getSolveWeight a.attempts)).sum
      let finalBaseScore := getDynamicBaseFromWeightedSolves weightedSolves
      let folded := solvedAttempts.foldl (finalizeStep finalBaseScore) (db, 0, 0)
      let dbFinal : DB := { folded.1 with
          problems := folded.1.problems.map (fun p => if p.id == problem.id then
            { p with baseScore := finalBaseScore, isFinalized := true } else p) }
      .ok ({ problemNumber := problem.number, finalBaseScore := finalBaseScore,
             weightedSolves := weightedSolves, adjustedUsers := folded.2.1,
             initializedUsers := folded.2.2 }, dbFinal)

/-- The loop body of `unfinalizeProblemScoring`: a solved row holding a
pre-finalize snapshot has the inverse delta applied to its solver's
ledger (when non-zero) and its award restored; rows with no snapshot are
skipped.  The accumulator carries the database and `revertedUsers`. -/
def unfinalizeStep (acc : DB × Int) (attempt : UserAttempt) : DB × Int :=
  match attempt.preFinalizeAwardedXp with
  | none => acc
  | some pre =>
    let reverseDelta := -attempt.finalizeDelta
    let adjusted :=
      if reverseDelta ≠ 0 then (adjustUserXPByDbId attempt.userId reverseDelta acc.1, acc.2 + 1)
      else (acc.1, acc.2)
    let db2 : DB := { adjusted.1 with
        attempts := adjusted.1.attempts.map (fun a => if a.id == attempt.id then
          { a with awardedXp := pre, preFinalizeAwardedXp := none, finalizeDelta := 0 } else a) }
    (db2, adjusted.2)

/-- `unfinalizeProblemScoring(problemNumber)`: apply the inverse of the
finalize deltas and thaw the problem's score. -/
noncomputable def unfinalizeProblemScoring (problemNumber : String) (db : DB) :
    Except XpErr (UnfinalizeProblemResult × DB) :=
  match db.problems.find? (fun p => p.number == problemNumber) with
  | none => .error (.notFound problemNumber)
  | some problem =>
    if !problem.isFinalized then .error (.notFinalized problemNumber)
    else
      let solvedAttempts := db.attempts.filter (fun a => a.problemId == problem.id && a.solved)
      let folded := solvedAttempts.foldl unfinalizeStep (db, 0)
      let weightedSolves := getWeightedSolves problem.id folded.1
      let restoredBaseScore := getDynamicBaseFromWeightedSolves weightedSolves
      let dbFinal : DB := { folded.1 with
          problems := folded.1.problems.map (fun p => if p.id == problem.id then
            { p with baseScore := restoredBaseScore, isFinalized := false } else p) }
      .ok ({ problemNumber := problem.number, restoredBaseScore := restoredBaseScore,
             revertedUsers := folded.2 }, dbFinal)

/-- The tail of `recordAttempt` after the finalized check and the
`originalBaseScore` backfill: resolve user and row, increment counters,
recompute the dynamic score, and award XP on a first-time solve.
`problem` is the in-memory problem object of the source at this point;
its `baseScore` is the stored value read at the start of the call. -/
noncomputable def recordAttemptAfterBackfill (userId : String) (isCorrect : Bool)
    (problem : Problem) (db0 : DB) : AttemptResult × DB :=
  let fetched := getOrCreateUser userId db0
  let dbUser := fetched.1
  let db1 := fetched.2
  let found :=
    match db1.attempts.find? (fun a => a.userId == dbUser.id && a.problemId == problem.id) with
    | some a => (a, db1)
    | none =>
      let a : UserAttempt := { id := "a" ++ toString db1.nextAttemptId, userId := dbUser.id,
                               problemId := problem.id, attempts := 0, solved := false,
                               awardedXp := 0, preFinalizeAwardedXp := none, finalizeDelta := 0 }
      (a, { db1 with attempts := db1.attempts ++ [a], nextAttemptId := db1.nextAttemptId + 1 })
  let userAttempt := found.1
  let db2 := found.2
  let newAttempts := userAttempt.attempts + 1
  let solvedAfterReview := userAttempt.solved || isCorrect
  let db3 : DB := { db2 with
      attempts := db2.attempts.map (fun a => if a.id == userAttempt.id then
        { a with attempts := newAttempts, solved := solvedAfterReview } else a) }
  let newlySolved := isCorrect && !userAttempt.solved
  let newGlobalAttempts := problem.attempts + 1
  let newGlobalSolves := problem.solves + (if newlySolved then 1 else 0)
  let db4 : DB := { db3 with
      problems := db3.problems.map (fun p => if p.id == problem.id then
        { p with attempts := newGlobalAttempts, solves := newGlobalSolves } else p) }
  let weightedSolves :=
    ((db4.attempts.filter (fun a => a.problemId == problem.id && a.solved)).map
      (fun a => getSolveWeight a.attempts)).sum
  let newBaseScore := getDynamicBaseFromWeightedSolves weightedSolves
  let db5 : DB := { db4 with
      problems := db4.problems.map (fun p => if p.id == problem.id then
        { p with baseScore := newBaseScore } else p) }
  if newlySolved then
    let baseForAward :=
      if problem.originalBaseScore > 0 then problem.originalBaseScore else problem.baseScore
    let awardedXP : Int := ⌊(baseForAward : ℚ) * getSolveWeight newAttempts⌋
    let added := addXP userId awardedXP db5
    let db7 : DB := { added.2 with
        attempts := added.2.attempts.map (fun a => if a.id == userAttempt.id then
          { a with awardedXp := awardedXP } else a) }
    ({ awardedXP := awardedXP, userXP := added.1, attemptNumber := newAttempts,
       totalProblemAttempts := newGlobalAttempts, totalProblemSolves := newGlobalSolves,
       weightedSolves := weightedSolves, originalBaseScore := problem.originalBaseScore,
       currentBaseScore := newBaseScore }, db7)
  else
    let latestXp :=
      match db5.users.find? (fun u => u.id == dbUser.id) with
      | some u => u.xp
      | none => dbUser.xp
    ({ awardedXP := 0, userXP := latestXp, attemptNumber := newAttempts,
       totalProblemAttempts := newGlobalAttempts, totalProblemSolves := newGlobalSolves,
       weightedSolves := weightedSolves, originalBaseScore := problem.originalBaseScore,
       currentBaseScore := newBaseScore }, db5)

/-- The middle of `recordAttempt`: reject attempts against a finalized
problem, then backfill `originalBaseScore` from the external source when
it is non-positive.  `sheet` is `getProblemByNumber` composed with
`parseInt`; `none` is a failed sheet lookup. -/
noncomputable def recordAttemptCore (sheet : String → Option Int) (userId problemNumber : String)
    (isCorrect : Bool) (problem : Problem) (db : DB) : Except XpErr (AttemptResult × DB) :=
  if problem.isFinalized then .error (.finalizedProblem problemNumber)
  else if problem.originalBaseScore ≤ 0 then
    match sheet problemNumber with
    | none => .error (.sheetMissing problemNumber)
    | some fallbackOriginal =>
      let problem1 : Problem := { problem with originalBaseScore := fallbackOriginal }
      let db1 : DB := { db with
          problems := db.problems.map (fun p => if p.id == problem.id then
            { p with originalBaseScore := fallbackOriginal } else p) }
      .ok (recordAttemptAfterBackfill userId isCorrect problem1 db1)
  else .ok (recordAttemptAfterBackfill userId isCorrect problem db)

/-- `recordAttempt(userId, problemNumber, isCorrect)`: resolve or create
the problem (pulling its original base score from the external source on
creation), then run the attempt. -/
noncomputable def recordAttempt (sheet : String → Option Int) (userId problemNumber : String)
    (isCorrect : Bool) (db : DB) : Except XpErr (AttemptResult × DB) :=
  match db.problems.find? (fun p => p.number == problemNumber) with
  | some problem => recordAttemptCore sheet userId problemNumber isCorrect problem db
  | none =>
    match sheet problemNumber with
    | none => .error (.sheetMissing problemNumber)
    | some originalBaseScore =>
      let problem : Problem := { id := "p" ++ toString db.nextProblemId, number := problemNumber,
                                 originalBaseScore := originalBaseScore,
                                 baseScore := originalBaseScore, attempts := 0, solves := 0,
                                 isFinalized := false }
      let db1 : DB := { db with problems := db.problems ++ [problem],
                                nextProblemId := db.nextProblemId + 1 }
      recordAttemptCore sheet userId problemNumber isCorrect problem db1

/-! ### The spec §8 scenario on problem #7, replayed concretely -/

/-- Sheet stub for the scenario: the problem row already exists with a
positive `originalBaseScore`, so the external source is never consulted
(the trace succeeding with an always-failing sheet proves that). -/
def exNoSheet : String → Option Int := fun _ => none

/-- Problem #7 with `originalBaseScore = 100` and no prior attempts. -/
def exProblem7 : Problem :=
  { id := "p7", number := "7", originalBaseScore := 100, baseScore := 100,
    attempts := 0, solves := 0, isFinalized := false }

/-- Scenario start: problem #7 on file, no users, no attempts. -/
def exDb0 : DB :=
  { users := [], problems := [exProblem7], attempts := [], nextUserId := 0,
    nextProblemId := 0, nextAttemptId := 0 }

/-- State after user B's wrong first attempt. -/
noncomputable def exDb1 : DB :=
  { users := [{ id := "u0", discordId := "B", xp := 0 }],
    problems := [{ id := "p7", number := "7", originalBaseScore := 100,
                   baseScore := getDynamicBaseFromWeightedSolves 0, attempts := 1, solves := 0,
                   isFinalized := false }],
    attempts := [{ id := "a0", userId := "u0", problemId := "p7", attempts := 1, solved := false,
                   awardedXp := 0, preFinalizeAwardedXp := none, finalizeDelta := 0 }],
    nextUserId := 1, nextProblemId := 0, nextAttemptId := 1 }

/-- Result of user B's wrong first attempt. -/
noncomputable def exR1 : AttemptResult :=
  { awardedXP := 0, userXP := 0, attemptNumber := 1, totalProblemAttempts := 1,
    totalProblemSolves := 0, weightedSolves := 0, originalBaseScore := 100,
    currentBaseScore := getDynamicBaseFromWeightedSolves 0 }

/-- State after user A's correct first attempt. -/
noncomputable def exDb2 : DB :=
  { users := [{ id := "u0", discordId := "B", xp := 0 },
              { id := "u1", discordId := "A", xp := 100 }],
    problems := [{ id := "p7", number := "7", originalBaseScore := 100,
                   baseScore := getDynamicBaseFromWeightedSolves 1, attempts := 2, solves := 1,
                   isFinalized := false }],
    attempts := [{ id := "a0", userId := "u0", problemId := "p7", attempts := 1, solved := false,
                   awardedXp := 0, preFinalizeAwardedXp := none, finalizeDelta := 0 },
                 { id := "a1", userId := "u1", problemId := "p7", attempts := 1, solved := true,
                   awardedXp := 100, preFinalizeAwardedXp := none, finalizeDelta := 0 }],
    nextUserId := 2, nextProblemId := 0, nextAttemptId := 2 }

/-- Result of user A's correct first attempt: full 100 XP. -/
noncomputable def exR2 : AttemptResult :=
  { awardedXP := 100, userXP := 100, attemptNumber := 1, totalProblemAttempts := 2,
    totalProblemSolves := 1, weightedSolves := 1, originalBaseScore := 100,
    currentBaseScore := getDynamicBaseFromWeightedSolves 1 }

/-- State after user B's correct second attempt. -/
noncomputable def exDb3 : DB :=
  { users := [{ id := "u0", discordId := "B", xp := 80 },
              { id := "u1", discordId := "A", xp := 100 }],
    problems := [{ id := "p7", number := "7", originalBaseScore := 100,
                   baseScore := getDynamicBaseFromWeightedSolves (9/5), attempts := 3, solves := 2,
                   isFinalized := false }],
    attempts := [{ id := "a0", userId := "u0", problemId := "p7", attempts := 2, solved := true,
                   awardedXp := 80, preFinalizeAwardedXp := none, finalizeDelta := 0 },
                 { id := "a1", userId := "u1", problemId := "p7", attempts := 1, solved := true,
                   awardedXp := 100, preFinalizeAwardedXp := none, finalizeDelta := 0 }],
    nextUserId := 2, nextProblemId := 0, nextAttemptId := 2 }

/-- Result of user B's correct second attempt: decayed award `⌊100·0.8⌋ = 80`. -/
noncomputable def exR3 : AttemptResult :=
  { awardedXP := 80, userXP := 80, attemptNumber := 2, totalProblemAttempts := 3,
    totalProblemSolves := 2, weightedSolves := 9/5, originalBaseScore := 100,
    currentBaseScore := getDynamicBaseFromWeightedSolves (9/5) }

/-- Modelled from the spec: the strict internal-key ledger adjustment
the specification's §4.2 describes — "the direct internal-key variant
requires the user to already exist (fails with NotFound if not)".  It is
stated only for comparison: the source's `adjustUserXPByDbId` silently
returns instead of failing. -/
def adjustUserXPByDbIdStrictSpec (userId : String) (delta : Int) (db : DB) :
    Except XpErr DB :=
  match db.users.find? (fun u => u.id == userId) with
  | none => .error (.notFound userId)
  | some user =>
    let newXP := max 0 (user.xp + delta)
    .ok { db with
      users := db.users.map (fun u => if u.id == userId then { u with xp := newXP } else u) }

/-- One invocation of an XP-mutating entry point of the module. -/
inductive Op where
  | addXPOp (discordId : String) (amount : Int)
  | removeXPOp (discordId : String) (amount : Int)
  | adjustOp (userId : String) (delta : Int)
  | getOrCreateOp (discordId : String)
  | recordAttemptOp (userId problemNumber : String) (isCorrect : Bool)
  | finalizeOp (problemNumber : String)
  | unfinalizeOp (problemNumber : String)
  | resetOp (problemNumber : String)

/-- The database state after running one entry point; an operation that
throws leaves the state unchanged (in the source every `throw` happens
before the operation's first write). -/
noncomputable def runOp (sheet : String → Option Int) (db : DB) : Op → DB
  | .addXPOp d amt => (addXP d amt db).2
  | .removeXPOp d amt => (removeXP d amt db).2
  | .adjustOp uid delta => adjustUserXPByDbId uid delta db
  | .getOrCreateOp d => (getOrCreateUser d db).2
  | .recordAttemptOp uid n c =>
    match recordAttempt sheet uid n c db with
    | .ok r => r.2
    | .error _ => db
  | .finalizeOp n =>
    match finalizeProblemScoring n db with
    | .ok r => r.2
    | .error _ => db
  | .unfinalizeOp n =>
    match unfinalizeProblemScoring n db with
    | .ok r => r.2
    | .error _ => db
  | .resetOp n =>
    match resetProblemStats n db with
    | .ok r => r.2
    | .error _ => db

/-- Every stored XP balance is non-negative. -/
def AllXpNonneg (db : DB) : Prop := ∀ u ∈ db.users, 0 ≤ u.xp

instance (db : DB) : Decidable (AllXpNonneg db) := by
  unfold AllXpNonneg
  infer_instance

/-! ### Derived views of the finalize / unfinalize loops, for statements -/

/-- The solved `UserAttempt` rows of a problem, in table order (the
snapshot both finalize and unfinalize iterate over). -/
def solvedAttemptsFor (db : DB) (prob : Problem) : List UserAttempt :=
  db.attempts.filter (fun a => a.problemId == prob.id && a.solved)

/-- The weighted-solve total finalize computes for a problem. -/
def weightedSolvesOf (db : DB) (prob : Problem) : ℚ :=
  ((solvedAttemptsFor db prob).map (fun a => getSolveWeight a.attempts)).sum

/-- The frozen base score finalize computes for a problem. -/
noncomputable def finalBaseOf (db : DB) (prob : Problem) : Int :=
  getDynamicBaseFromWeightedSolves (weightedSolvesOf db prob)

/-- `baselineAward` of a row inside the finalize loop. -/
def baselineAwardOf (a : UserAttempt) : Int := a.preFinalizeAwardedXp.getD a.awardedXp

/-- `finalAward` of a row inside the finalize loop. -/
noncomputable def finalAwardOf (fbs : Int) (a : UserAttempt) : Int :=
  ⌊(fbs : ℚ) * getSolveWeight a.attempts⌋

/-- The `finalizeDelta` the finalize loop writes on a row. -/
noncomputable def finalizeDeltaOf (fbs : Int) (a : UserAttempt) : Int :=
  if baselineAwardOf a = 0 then 0 else finalAwardOf fbs a - baselineAwardOf a

/-- A row after the finalize loop rewrites it. -/
noncomputable def finalizedRow (fbs : Int) (a : UserAttempt) : UserAttempt :=
  { a with preFinalizeAwardedXp := some (baselineAwardOf a),
           awardedXp := finalAwardOf fbs a,
           finalizeDelta := finalizeDeltaOf fbs a }

/-- A row counted toward `initializedUsers` (legacy, never priced). -/
def isLegacyRow (a : UserAttempt) : Bool := baselineAwardOf a == 0

/-- A row counted toward `adjustedUsers` (non-zero baseline and delta). -/
noncomputable def isAdjustedRow (fbs : Int) (a : UserAttempt) : Bool :=
  !(baselineAwardOf a == 0) && !((finalAwardOf fbs a - baselineAwardOf a) == 0)

/-- A row counted toward `revertedUsers` by unfinalize. -/
def isRevertedRow (a : UserAttempt) : Bool :=
  a.preFinalizeAwardedXp.isSome && !((-a.finalizeDelta) == 0)

/-- A row after the unfinalize loop processes it (rows without a
snapshot are skipped). -/
def unfinalizedRow (a : UserAttempt) : UserAttempt :=
  match a.preFinalizeAwardedXp with
  | none => a
  | some pre => { a with awardedXp := pre, preFinalizeAwardedXp := none, finalizeDelta := 0 }

/-- The users-table effect of `adjustUserXPByDbId`. -/
def adjustUsersList (userId : String) (delta : Int) (us : List User) : List User :=
  if delta = 0 then us
  else
    match us.find? (fun u => u.id == userId) with
    | none => us
    | some user =>
      us.map (fun u => if u.id == userId then { u with xp := max 0 (user.xp + delta) } else u)

/-- The users-table effect of one finalize-loop iteration. -/
noncomputable def finalizeUserStep (fbs : Int) (us : List User) (a : UserAttempt) : List User :=
  if baselineAwardOf a = 0 then us
  else if finalAwardOf fbs a - baselineAwardOf a ≠ 0 then
    adjustUsersList a.userId (finalAwardOf fbs a - baselineAwardOf a) us
  else us

/-- The users-table effect of one unfinalize-loop iteration. -/
def unfinalizeUserStep (us : List User) (a : UserAttempt) : List User :=
  match a.preFinalizeAwardedXp with
  | none => us
  | some _ =>
    if -a.finalizeDelta ≠ 0 then adjustUsersList a.userId (-a.finalizeDelta) us else us

/-- Look a user up by internal id. -/
def lookupUser (us : List User) (uid : String) : Option User :=
  us.find? (fun u => u.id == uid)

/-- The per-user effect of one finalize-loop iteration, valid when user
ids are duplicate-free. -/
noncomputable def finalizeUserPoint (fbs : Int) (a : UserAttempt) (u : User) : User :=
  if baselineAwardOf a = 0 then u
  else if finalAwardOf fbs a - baselineAwardOf a ≠ 0 then
    (if u.id == a.userId then
      { u with xp := max 0 (u.xp + (finalAwardOf fbs a - baselineAwardOf a)) }
    else u)
  else u

/-- The per-user effect of one unfinalize-loop iteration, valid when
user ids are duplicate-free. -/
def unfinalizeUserPoint (a : UserAttempt) (u : User) : User :=
  match a.preFinalizeAwardedXp with
  | none => u
  | some _ =>
    if -a.finalizeDelta ≠ 0 then
      (if u.id == a.userId then { u with xp := max 0 (u.xp + -a.finalizeDelta) } else u)
    else u

/-! ### Small fixed states used to instantiate hypotheses -/

/-- A solver whose balance has dropped to 5 since their 100-XP award. -/
def cexUser : User := { id := "u1", discordId := "d1", xp := 5 }

/-- A problem whose sole solver was awarded 100 XP. -/
def cexProblem : Problem :=
  { id := "p1", number := "8", originalBaseScore := 100, baseScore := 100,
    attempts := 1, solves := 1, isFinalized := false }

/-- The solved row carrying the historical 100-XP award. -/
def cexRow : UserAttempt :=
  { id := "a1", userId := "u1", problemId := "p1", attempts := 1, solved := true,
    awardedXp := 100, preFinalizeAwardedXp := none, finalizeDelta := 0 }

/-- The clamping scenario: finalize will re-price the 100-XP award down
to the curve value (≤ 26), a delta below −74, clamping the balance 5 at
zero; unfinalize then adds the delta back, ending far above 5. -/
def cexDb : DB :=
  { users := [cexUser], problems := [cexProblem], attempts := [cexRow],
    nextUserId := 2, nextProblemId := 2, nextAttemptId := 2 }

/-- A state holding one user (internal id `u0`) and nothing else. -/
def exLoneUserDb : DB :=
  { users := [{ id := "u0", discordId := "B", xp := 7 }], problems := [], attempts := [],
    nextUserId := 1, nextProblemId := 0, nextAttemptId := 0 }

/-- An already-finalized problem. -/
def exFinalizedProblem : Problem :=
  { id := "p9", number := "9", originalBaseScore := 50, baseScore := 40,
    attempts := 3, solves := 2, isFinalized := true }

/-- A state holding the already-finalized problem #9. -/
def exFinalizedDb : DB :=
  { users := [], problems := [exFinalizedProblem], attempts := [],
    nextUserId := 0, nextProblemId := 0, nextAttemptId := 0 }

/-- An open problem #5 whose only attempt row is unsolved. -/
def exOpenProblem : Problem :=
  { id := "p5", number := "5", originalBaseScore := 60, baseScore := 44,
    attempts := 2, solves := 0, isFinalized := false }

/-- A state holding problem #5 with one unsolved attempt row. -/
def exOpenDb : DB :=
  { users := [{ id := "u0", discordId := "B", xp := 12 }],
    problems := [exOpenProblem],
    attempts := [{ id := "a0", userId := "u0", problemId := "p5", attempts := 2, solved := false,
                   awardedXp := 0, preFinalizeAwardedXp := none, finalizeDelta := 0 }],
    nextUserId := 1, nextProblemId := 0, nextAttemptId := 1 }

/-- Sheet stub returning a zero base score for every problem: the
backfill then leaves `originalBaseScore ≤ 0` and the award falls back to
the stored `baseScore`. -/
def exSheet0 : String → Option Int := fun _ => some 0

/-- A sheet-scored problem (`originalBaseScore = 0`) whose stored
`baseScore` is the stale zero-solve curve value 34, with one wrong
attempt on file. -/
def exStaleProblem : Problem :=
  { id := "p1", number := "1", originalBaseScore := 0, baseScore := 34,
    attempts := 1, solves := 0, isFinalized := false }

/-- The stale-score scenario: user B has one wrong attempt on problem
#1; the stored `baseScore` 34 predates the solve that user A is about to
record. -/
def exStaleDb : DB :=
  { users := [{ id := "u0", discordId := "B", xp := 0 }],
    problems := [exStaleProblem],
    attempts := [{ id := "a0", userId := "u0", problemId := "p1", attempts := 1, solved := false,
                   awardedXp := 0, preFinalizeAwardedXp := none, finalizeDelta := 0 }],
    nextUserId := 1, nextProblemId := 1, nextAttemptId := 1 }

/-- Result of user A's solve in the stale-score scenario: the award is
computed from the stale stored score 34, although the recomputed
dynamic score for this attempt is `dynamicBaseScore(1) ≤ 26`. -/
noncomputable def exStaleR : AttemptResult :=
  { awardedXP := 34, userXP := 34, attemptNumber := 1, totalProblemAttempts := 2,
    totalProblemSolves := 1, weightedSolves := 1, originalBaseScore := 0,
    currentBaseScore := getDynamicBaseFromWeightedSolves 1 }

/-- State after user A's solve in the stale-score scenario. -/
noncomputable def exStaleDb1 : DB :=
  { users := [{ id := "u0", discordId := "B", xp := 0 },
              { id := "u1", discordId := "A", xp := 34 }],
    problems := [{ id := "p1", number := "1", originalBaseScore := 0,
                   baseScore := getDynamicBaseFromWeightedSolves 1, attempts := 2, solves := 1,
                   isFinalized := false }],
    attempts := [{ id := "a0", userId := "u0", problemId := "p1", attempts := 1, solved := false,
                   awardedXp := 0, preFinalizeAwardedXp := none, finalizeDelta := 0 },
                 { id := "a1", userId := "u1", problemId := "p1", attempts := 1, solved := true,
                   awardedXp := 34, preFinalizeAwardedXp := none, finalizeDelta := 0 }],
    nextUserId := 2, nextProblemId := 1, nextAttemptId := 2 }

/-- A problem whose solved row predates award tracking. -/
def exLegacyProblem : Problem :=
  { id := "p3", number := "3", originalBaseScore := 0, baseScore := 30,
    attempts := 1, solves := 1, isFinalized := false }

/-- A state for the legacy-row scenario: problem #3 has one solved row
whose `awardedXp` is 0 (never priced), owned by a user holding 12 XP. -/
def exLegacyDb : DB :=
  { users := [{ id := "u0", discordId := "B", xp := 12 }],
    problems := [exLegacyProblem],
    attempts := [{ id := "a0", userId := "u0", problemId := "p3", attempts := 1, solved := true,
                   awardedXp := 0, preFinalizeAwardedXp := none, finalizeDelta := 0 }],
    nextUserId := 1, nextProblemId := 0, nextAttemptId := 1 }

/-- A problem with stats to reset. -/
def exResetProblem : Problem :=
  { id := "p7", number := "7", originalBaseScore := 100, baseScore := 47,
    attempts := 3, solves := 2, isFinalized := false }

/-- A state for the reset scenario: problem #7 with two attempt rows and
two users holding already-awarded XP. -/
def exResetDb : DB :=
  { users := [{ id := "u0", discordId := "B", xp := 80 },
              { id := "u1", discordId := "A", xp := 100 }],
    problems := [exResetProblem],
    attempts := [{ id := "a0", userId := "u0", problemId := "p7", attempts := 2, solved := true,
                   awardedXp := 80, preFinalizeAwardedXp := none, finalizeDelta := 0 },
                 { id := "a1", userId := "u1", problemId := "p7", attempts := 1, solved := true,
                   awardedXp := 100, preFinalizeAwardedXp := none, finalizeDelta := 0 }],
    nextUserId := 2, nextProblemId := 0, nextAttemptId := 2 }

/-! ### List toolkit -/

/-- Mapping a row transformation that does not change the searched key
maps the search result. -/
theorem find?_map_of_key {α : Type} (g : α → α) (q : α → Bool) (hq : ∀ a, q (g a) = q a)
    (l : List α) : (l.map g).find? q = (l.find? q).map g := by
  rw [List.find?_map]
  have hfg : q ∘ g = q := funext hq
  rw [hfg]

/-- Searching an extended table first searches the old rows. -/
theorem find?_append_some {α : Type} {q : α → Bool} {l₁ l₂ : List α} {a : α}
    (h : l₁.find? q = some a) : (l₁ ++ l₂).find? q = some a := by
  rw [List.find?_append, h]
  rfl

/-- Searching an extended table falls through to the new rows when the
old rows do not match. -/
theorem find?_append_none {α : Type} {q : α → Bool} {l₁ l₂ : List α}
    (h : l₁.find? q = none) : (l₁ ++ l₂).find? q = l₂.find? q := by
  rw [List.find?_append, h]
  rfl

/-! ### Bounds for the dynamic-base-score curve -/

/-- Upper bound for the decaying exponential: `e^(-x) ≤ 1/(1+x)` for `x ≥ 0`. -/
theorem exp_neg_le_one_div {x : ℝ} (hx : 0 ≤ x) : Real.exp (-x) ≤ 1 / (1 + x) := by
  rw [Real.exp_neg]
  rw [inv_eq_one_div]
  apply one_div_le_one_div_of_le
  · linarith
  · have := Real.add_one_le_exp x
    linarith

/-- The curve value is never below the clamp. -/
theorem getDynamicBase_ge (w : ℚ) :
    MIN_DYNAMIC_BASE_SCORE ≤ getDynamicBaseFromWeightedSolves w :=
  le_max_left _ _

/-- The curve value at zero weighted solves: `round (8.90125 + 24.6239) = 34`. -/
theorem getDynamicBase_zero : getDynamicBaseFromWeightedSolves 0 = 34 := by
  unfold getDynamicBaseFromWeightedSolves
  have h0 : ((0 : ℚ) : ℝ) = 0 := by norm_num
  simp only [h0, mul_zero, Real.exp_zero, mul_one]
  have hr : jsRound ((CURVE_A1 : ℝ) + (CURVE_B1 : ℝ)) = 34 := by
    unfold jsRound CURVE_A1 CURVE_B1
    rw [Int.floor_eq_iff]
    constructor
    · push_cast
      norm_num
    · push_cast
      norm_num
  rw [hr]
  unfold MIN_DYNAMIC_BASE_SCORE
  norm_num

/-- The curve is bounded above by its value at zero (so by 34) for any
non-negative weighted-solve total. -/
theorem getDynamicBase_le_34 (w : ℚ) (hw : 0 ≤ w) :
    getDynamicBaseFromWeightedSolves w ≤ 34 := by
  unfold getDynamicBaseFromWeightedSolves
  have hwr : (0 : ℝ) ≤ (w : ℝ) := by exact_mod_cast hw
  have ha : Real.exp ((CURVE_a1 : ℝ) * (w : ℝ)) ≤ 1 := by
    rw [Real.exp_le_one_iff]
    have : (CURVE_a1 : ℝ) ≤ 0 := by unfold CURVE_a1; push_cast; norm_num
    nlinarith
  have hb : Real.exp ((CURVE_b1 : ℝ) * (w : ℝ)) ≤ 1 := by
    rw [Real.exp_le_one_iff]
    have : (CURVE_b1 : ℝ) ≤ 0 := by unfold CURVE_b1; push_cast; norm_num
    nlinarith
  have hA : (0 : ℝ) < (CURVE_A1 : ℝ) := by unfold CURVE_A1; push_cast; norm_num
  have hB : (0 : ℝ) < (CURVE_B1 : ℝ) := by unfold CURVE_B1; push_cast; norm_num
  have hsum : (CURVE_A1 : ℝ) * Real.exp ((CURVE_a1 : ℝ) * (w : ℝ)) +
      (CURVE_B1 : ℝ) * Real.exp ((CURVE_b1 : ℝ) * (w : ℝ)) ≤ 34 := by
    have h1 : (CURVE_A1 : ℝ) * Real.exp ((CURVE_a1 : ℝ) * (w : ℝ)) ≤ (CURVE_A1 : ℝ) := by
      nlinarith [Real.exp_pos ((CURVE_a1 : ℝ) * (w : ℝ))]
    have h2 : (CURVE_B1 : ℝ) * Real.exp ((CURVE_b1 : ℝ) * (w : ℝ)) ≤ (CURVE_B1 : ℝ) := by
      nlinarith [Real.exp_pos ((CURVE_b1 : ℝ) * (w : ℝ))]
    have hAB : (CURVE_A1 : ℝ) + (CURVE_B1 : ℝ) ≤ 34 := by
      unfold CURVE_A1 CURVE_B1; push_cast; norm_num
    linarith
  have hfloor : jsRound ((CURVE_A1 : ℝ) * Real.exp ((CURVE_a1 : ℝ) * (w : ℝ)) +
      (CURVE_B1 : ℝ) * Real.exp ((CURVE_b1 : ℝ) * (w : ℝ))) ≤ 34 := by
    unfold jsRound
    have : ((CURVE_A1 : ℝ) * Real.exp ((CURVE_a1 : ℝ) * (w : ℝ)) +
        (CURVE_B1 : ℝ) * Real.exp ((CURVE_b1 : ℝ) * (w : ℝ))) + 1/2 < ((35 : ℤ) : ℝ) := by
      push_cast
      linarith
    have h34 := Int.floor_lt.mpr this
    omega
  simp only [max_le_iff]
  constructor
  · unfold MIN_DYNAMIC_BASE_SCORE
    norm_num
  · exact hfloor

/-- The curve value at one weighted solve is at most 26 (the true value
is `round 25.118 = 25`; the bound is all the claims need). -/
theorem getDynamicBase_one_le : getDynamicBaseFromWeightedSolves 1 ≤ 26 := by
  unfold getDynamicBaseFromWeightedSolves
  have ha : Real.exp ((CURVE_a1 : ℝ) * ((1 : ℚ) : ℝ)) ≤ 1 := by
    rw [Real.exp_le_one_iff]
    unfold CURVE_a1
    push_cast
    norm_num
  have hb : Real.exp ((CURVE_b1 : ℝ) * ((1 : ℚ) : ℝ)) ≤ 1 / (1 + 0.402639) := by
    have hx := exp_neg_le_one_div (x := (0.402639 : ℝ)) (by norm_num)
    have heq : (CURVE_b1 : ℝ) * ((1 : ℚ) : ℝ) = -(0.402639 : ℝ) := by
      unfold CURVE_b1
      push_cast
      norm_num
    rw [heq]
    exact hx
  have hA : (CURVE_A1 : ℝ) = 8.90125 := by unfold CURVE_A1; push_cast; norm_num
  have hB : (CURVE_B1 : ℝ) = 24.6239 := by unfold CURVE_B1; push_cast; norm_num
  have hsum : (CURVE_A1 : ℝ) * Real.exp ((CURVE_a1 : ℝ) * ((1 : ℚ) : ℝ)) +
      (CURVE_B1 : ℝ) * Real.exp ((CURVE_b1 : ℝ) * ((1 : ℚ) : ℝ)) < 26.5 := by
    rw [hA, hB]
    have ha2 : (8.90125 : ℝ) * Real.exp ((CURVE_a1 : ℝ) * ((1 : ℚ) : ℝ)) ≤ 8.90125 := by
      have h9 := mul_le_mul_of_nonneg_left ha (by norm_num : (0:ℝ) ≤ 8.90125)
      linarith
    have hb2 : (24.6239 : ℝ) * Real.exp ((CURVE_b1 : ℝ) * ((1 : ℚ) : ℝ)) ≤
        24.6239 * (1 / (1 + 0.402639)) :=
      mul_le_mul_of_nonneg_left hb (by norm_num : (0:ℝ) ≤ 24.6239)
    have hc : (24.6239 : ℝ) * (1 / (1 + 0.402639)) ≤ 17.56 := by norm_num
    linarith
  have hfloor : jsRound ((CURVE_A1 : ℝ) * Real.exp ((CURVE_a1 : ℝ) * ((1 : ℚ) : ℝ)) +
      (CURVE_B1 : ℝ) * Real.exp ((CURVE_b1 : ℝ) * ((1 : ℚ) : ℝ))) ≤ 26 := by
    unfold jsRound
    have hlt : ((CURVE_A1 : ℝ) * Real.exp ((CURVE_a1 : ℝ) * ((1 : ℚ) : ℝ)) +
        (CURVE_B1 : ℝ) * Real.exp ((CURVE_b1 : ℝ) * ((1 : ℚ) : ℝ))) + 1/2 < ((27 : ℤ) : ℝ) := by
      push_cast
      linarith
    have h27 := Int.floor_lt.mpr hlt
    omega
  simp only [max_le_iff]
  constructor
  · unfold MIN_DYNAMIC_BASE_SCORE
    norm_num
  · exact hfloor

/-- The curve value at `weightedSolves = 9/5 = 1.8`: the raw curve is
about `20.39`, below the clamp, so the result is exactly 25 — not the
"≈ 32" the specification's scenario expects. -/
theorem getDynamicBase_nine_fifths : getDynamicBaseFromWeightedSolves (9/5) = 25 := by
  unfold getDynamicBaseFromWeightedSolves
  have ha : Real.exp ((CURVE_a1 : ℝ) * ((9/5 : ℚ) : ℝ)) ≤ 1 := by
    rw [Real.exp_le_one_iff]
    unfold CURVE_a1
    push_cast
    norm_num
  have hb : Real.exp ((CURVE_b1 : ℝ) * ((9/5 : ℚ) : ℝ)) ≤ 1 / (1 + 0.7247502) := by
    have hx := exp_neg_le_one_div (x := (0.7247502 : ℝ)) (by norm_num)
    have heq : (CURVE_b1 : ℝ) * ((9/5 : ℚ) : ℝ) = -(0.7247502 : ℝ) := by
      unfold CURVE_b1
      push_cast
      norm_num
    rw [heq]
    exact hx
  have hsum : (CURVE_A1 : ℝ) * Real.exp ((CURVE_a1 : ℝ) * ((9/5 : ℚ) : ℝ)) +
      (CURVE_B1 : ℝ) * Real.exp ((CURVE_b1 : ℝ) * ((9/5 : ℚ) : ℝ)) < 25.5 := by
    have hA : (CURVE_A1 : ℝ) = 8.90125 := by unfold CURVE_A1; push_cast; norm_num
    have hB : (CURVE_B1 : ℝ) = 24.6239 := by unfold CURVE_B1; push_cast; norm_num
    rw [hA, hB]
    have ha2 : (8.90125 : ℝ) * Real.exp ((CURVE_a1 : ℝ) * ((9/5 : ℚ) : ℝ)) ≤ 8.90125 := by
      have h9 := mul_le_mul_of_nonneg_left ha (by norm_num : (0:ℝ) ≤ 8.90125)
      linarith
    have hb2 : (24.6239 : ℝ) * Real.exp ((CURVE_b1 : ℝ) * ((9/5 : ℚ) : ℝ)) ≤
        24.6239 * (1 / (1 + 0.7247502)) :=
      mul_le_mul_of_nonneg_left hb (by norm_num : (0:ℝ) ≤ 24.6239)
    have hc : (24.6239 : ℝ) * (1 / (1 + 0.7247502)) ≤ 14.28 := by norm_num
    linarith
  have hfloor : jsRound ((CURVE_A1 : ℝ) * Real.exp ((CURVE_a1 : ℝ) * ((9/5 : ℚ) : ℝ)) +
      (CURVE_B1 : ℝ) * Real.exp ((CURVE_b1 : ℝ) * ((9/5 : ℚ) : ℝ))) ≤ 25 := by
    unfold jsRound
    have hlt : ((CURVE_A1 : ℝ) * Real.exp ((CURVE_a1 : ℝ) * ((9/5 : ℚ) : ℝ)) +
        (CURVE_B1 : ℝ) * Real.exp ((CURVE_b1 : ℝ) * ((9/5 : ℚ) : ℝ))) + 1/2 < ((26 : ℤ) : ℝ) := by
      push_cast
      linarith
    have h26 := Int.floor_lt.mpr hlt
    omega
  have hmax : MIN_DYNAMIC_BASE_SCORE = (25 : ℤ) := by unfold MIN_DYNAMIC_BASE_SCORE; rfl
  rw [hmax]
  exact max_eq_left hfloor

theorem exTrace1 : recordAttempt exNoSheet "B" "7" false exDb0 = .ok (exR1, exDb1) := by
  rfl

theorem exTrace2 : recordAttempt exNoSheet "A" "7" true exDb1 = .ok (exR2, exDb2) := by
  simp [recordAttempt, recordAttemptCore, recordAttemptAfterBackfill, getOrCreateUser,
    addXP, exNoSheet, exDb1, exProblem7, exDb2, exR2, getSolveWeight, getWrongAttempts,
    SCORE_DECAY, MAX_WRONG_ATTEMPTS, List.find?, List.filter,
    show "u" ++ toString 1 = "u1" from rfl, show "a" ++ toString 1 = "a1" from rfl]

theorem exTrace3 : recordAttempt exNoSheet "B" "7" true exDb2 = .ok (exR3, exDb3) := by
  simp [recordAttempt, recordAttemptCore, recordAttemptAfterBackfill, getOrCreateUser,
    addXP, exNoSheet, exDb2, exProblem7, exDb3, exR3, getSolveWeight, getWrongAttempts,
    SCORE_DECAY, MAX_WRONG_ATTEMPTS, List.find?, List.filter]
  norm_num [getSolveWeight, getWrongAttempts, SCORE_DECAY, MAX_WRONG_ATTEMPTS]

/-! ### Components of the finalize / unfinalize loops -/

/-- `adjustUserXPByDbId` only rewrites the users table, exactly as
`adjustUsersList` describes. -/
theorem adjustUserXPByDbId_components (uid : String) (delta : Int) (db : DB) :
    adjustUserXPByDbId uid delta db =
      { db with users := adjustUsersList uid delta db.users } := by
  unfold adjustUserXPByDbId adjustUsersList
  rcases eq_or_ne delta 0 with h | h
  · simp [h]
  · rw [if_neg h, if_neg h]
    cases hfind : db.users.find? (fun u => u.id == uid) <;> simp

/-- One finalize-loop iteration, split into its users / rows / counters
effects. -/
theorem finalizeStep_components (fbs : Int) (acc : DB × Int × Int) (a : UserAttempt) :
    (finalizeStep fbs acc a).1.users = finalizeUserStep fbs acc.1.users a ∧
    (finalizeStep fbs acc a).1.attempts = acc.1.attempts.map (fun r =>
      if r.id == a.id then
        { r with preFinalizeAwardedXp := some (baselineAwardOf a),
                 awardedXp := finalAwardOf fbs a, finalizeDelta := finalizeDeltaOf fbs a }
      else r) ∧
    (finalizeStep fbs acc a).1.problems = acc.1.problems ∧
    (finalizeStep fbs acc a).1.nextUserId = acc.1.nextUserId ∧
    (finalizeStep fbs acc a).1.nextProblemId = acc.1.nextProblemId ∧
    (finalizeStep fbs acc a).1.nextAttemptId = acc.1.nextAttemptId ∧
    (finalizeStep fbs acc a).2.1 = acc.2.1 + (if isAdjustedRow fbs a then 1 else 0) ∧
    (finalizeStep fbs acc a).2.2 = acc.2.2 + (if isLegacyRow a then 1 else 0) := by
  unfold finalizeStep finalizeUserStep isAdjustedRow isLegacyRow
  rcases eq_or_ne (baselineAwardOf a) 0 with h0 | h0
  · have h0r : a.preFinalizeAwardedXp.getD a.awardedXp = 0 := by
      simpa [baselineAwardOf] using h0
    simp [h0, h0r, baselineAwardOf, finalAwardOf, finalizeDeltaOf]
  · have h0r : ¬ a.preFinalizeAwardedXp.getD a.awardedXp = 0 := by
      simpa [baselineAwardOf] using h0
    rcases eq_or_ne (finalAwardOf fbs a - baselineAwardOf a) 0 with hδ | hδ
    · have hraw : (⌊(fbs : ℚ) * getSolveWeight a.attempts⌋ -
          a.preFinalizeAwardedXp.getD a.awardedXp) = 0 := by
        simpa [finalAwardOf, baselineAwardOf] using hδ
      simp [h0, h0r, hδ, hraw, baselineAwardOf, finalAwardOf, finalizeDeltaOf,
        adjustUserXPByDbId_components]
    · have hraw : ¬ (⌊(fbs : ℚ) * getSolveWeight a.attempts⌋ -
          a.preFinalizeAwardedXp.getD a.awardedXp) = 0 := by
        simpa [finalAwardOf, baselineAwardOf] using hδ
      simp [h0, h0r, hδ, hraw, baselineAwardOf, finalAwardOf, finalizeDeltaOf,
        adjustUserXPByDbId_components]

/-- The finalize loop, characterized component-wise over its snapshot. -/
theorem finalize_foldl_spec (fbs : Int) (L : List UserAttempt) :
    ∀ (db : DB) (c1 c2 : Int),
      (L.foldl (finalizeStep fbs) (db, c1, c2)).1.users =
        L.foldl (finalizeUserStep fbs) db.users ∧
      (L.foldl (finalizeStep fbs) (db, c1, c2)).1.attempts =
        L.foldl (fun rows a => rows.map (fun r =>
          if r.id == a.id then
            { r with preFinalizeAwardedXp := some (baselineAwardOf a),
                     awardedXp := finalAwardOf fbs a, finalizeDelta := finalizeDeltaOf fbs a }
          else r)) db.attempts ∧
      (L.foldl (finalizeStep fbs) (db, c1, c2)).1.problems = db.problems ∧
      (L.foldl (finalizeStep fbs) (db, c1, c2)).1.nextUserId = db.nextUserId ∧
      (L.foldl (finalizeStep fbs) (db, c1, c2)).1.nextProblemId = db.nextProblemId ∧
      (L.foldl (finalizeStep fbs) (db, c1, c2)).1.nextAttemptId = db.nextAttemptId ∧
      (L.foldl (finalizeStep fbs) (db, c1, c2)).2.1 = c1 + (L.countP (isAdjustedRow fbs) : Int) ∧
      (L.foldl (finalizeStep fbs) (db, c1, c2)).2.2 = c2 + (L.countP isLegacyRow : Int) := by
  induction L with
  | nil =>
    intro db c1 c2
    simp
  | cons a L ih =>
    intro db c1 c2
    obtain ⟨hu, hr, hp, hn1, hn2, hn3, hc1, hc2⟩ := finalizeStep_components fbs (db, c1, c2) a
    have heta : finalizeStep fbs (db, c1, c2) a =
        ((finalizeStep fbs (db, c1, c2) a).1,
         (finalizeStep fbs (db, c1, c2) a).2.1,
         (finalizeStep fbs (db, c1, c2) a).2.2) := rfl
    obtain ⟨iu, ir, ip, in1, in2, in3, ic1, ic2⟩ :=
      ih (finalizeStep fbs (db, c1, c2) a).1
        (finalizeStep fbs (db, c1, c2) a).2.1 (finalizeStep fbs (db, c1, c2) a).2.2
    rw [List.foldl_cons, heta]
    refine ⟨?_, ?_, ?_, ?_, ?_, ?_, ?_, ?_⟩
    · rw [iu, hu, List.foldl_cons]
    · rw [ir, hr, List.foldl_cons]
    · rw [ip, hp]
    · rw [in1, hn1]
    · rw [in2, hn2]
    · rw [in3, hn3]
    · rw [ic1, hc1, List.countP_cons]
      push_cast
      ring
    · rw [ic2, hc2, List.countP_cons]
      push_cast
      ring

/-- One unfinalize-loop iteration, split into its effects. -/
theorem unfinalizeStep_components (acc : DB × Int) (a : UserAttempt) :
    (unfinalizeStep acc a).1.users = unfinalizeUserStep acc.1.users a ∧
    (unfinalizeStep acc a).1.attempts = acc.1.attempts.map (fun r =>
      match a.preFinalizeAwardedXp with
      | none => r
      | some pre =>
        if r.id == a.id then
          { r with awardedXp := pre, preFinalizeAwardedXp := none, finalizeDelta := 0 }
        else r) ∧
    (unfinalizeStep acc a).1.problems = acc.1.problems ∧
    (unfinalizeStep acc a).1.nextUserId = acc.1.nextUserId ∧
    (unfinalizeStep acc a).1.nextProblemId = acc.1.nextProblemId ∧
    (unfinalizeStep acc a).1.nextAttemptId = acc.1.nextAttemptId ∧
    (unfinalizeStep acc a).2 = acc.2 + (if isRevertedRow a then 1 else 0) := by
  unfold unfinalizeStep unfinalizeUserStep isRevertedRow
  cases hpre : a.preFinalizeAwardedXp with
  | none => simp [hpre, List.map_id]
  | some pre =>
    rcases eq_or_ne (-a.finalizeDelta) 0 with hδ | hδ
    · rw [if_neg (not_not_intro hδ)]
      simp [hpre, hδ, adjustUserXPByDbId_components]
    · rw [if_pos hδ]
      simp [hpre, hδ, adjustUserXPByDbId_components]

/-- The unfinalize loop, characterized component-wise over its snapshot. -/
theorem unfinalize_foldl_spec (L : List UserAttempt) :
    ∀ (db : DB) (c : Int),
      (L.foldl unfinalizeStep (db, c)).1.users = L.foldl unfinalizeUserStep db.users ∧
      (L.foldl unfinalizeStep (db, c)).1.attempts =
        L.foldl (fun rows a => rows.map (fun r =>
          match a.preFinalizeAwardedXp with
          | none => r
          | some pre =>
            if r.id == a.id then
              { r with awardedXp := pre, preFinalizeAwardedXp := none, finalizeDelta := 0 }
            else r)) db.attempts ∧
      (L.foldl unfinalizeStep (db, c)).1.problems = db.problems ∧
      (L.foldl unfinalizeStep (db, c)).1.nextUserId = db.nextUserId ∧
      (L.foldl unfinalizeStep (db, c)).1.nextProblemId = db.nextProblemId ∧
      (L.foldl unfinalizeStep (db, c)).1.nextAttemptId = db.nextAttemptId ∧
      (L.foldl unfinalizeStep (db, c)).2 = c + (L.countP isRevertedRow : Int) := by
  induction L with
  | nil =>
    intro db c
    simp
  | cons a L ih =>
    intro db c
    obtain ⟨hu, hr, hp, hn1, hn2, hn3, hc⟩ := unfinalizeStep_components (db, c) a
    have heta : unfinalizeStep (db, c) a =
        ((unfinalizeStep (db, c) a).1, (unfinalizeStep (db, c) a).2) := rfl
    obtain ⟨iu, ir, ip, in1, in2, in3, ic⟩ :=
      ih (unfinalizeStep (db, c) a).1 (unfinalizeStep (db, c) a).2
    rw [List.foldl_cons, heta]
    refine ⟨?_, ?_, ?_, ?_, ?_, ?_, ?_⟩
    · rw [iu, hu, List.foldl_cons]
    · rw [ir, hr, List.foldl_cons]
    · rw [ip, hp]
    · rw [in1, hn1]
    · rw [in2, hn2]
    · rw [in3, hn3]
    · rw [ic, hc, List.countP_cons]
      push_cast
      ring

/-- In a table whose keys are pairwise distinct, looking a member up by
its key finds exactly that member. -/
theorem find?_key_of_mem_nodup {α : Type} (key : α → String) {l : List α}
    (hnodup : (l.map key).Nodup) {r : α} (hr : r ∈ l) :
    l.find? (fun a => key r == key a) = some r := by
  induction l with
  | nil => cases hr
  | cons b l ih =>
    rw [List.map_cons, List.nodup_cons] at hnodup
    rcases List.mem_cons.mp hr with rfl | hr2
    · simp [List.find?]
    · by_cases hb : (key r == key b) = true
      · exfalso
        have hmem : key r ∈ l.map key := List.mem_map_of_mem key hr2
        have hbid : key r = key b := by simpa using hb
        rw [← hbid] at hnodup
        exact hnodup.1 hmem
      · have hbf : (key r == key b) = false := by simpa using hb
        simp only [List.find?, hbf]
        exact ih hnodup.2 hr2

/-- Iterated whole-table rewrites driven by a duplicate-free snapshot
collapse to a single pointwise rewrite: each iteration touches only the
row carrying its snapshot row's key. -/
theorem foldl_rowmap_eq_map (f : UserAttempt → UserAttempt → UserAttempt)
    (hkeep : ∀ a r, (r.id == a.id) = false → f a r = r)
    (hkey : ∀ a r, (f a r).id = r.id)
    (L : List UserAttempt) :
    ∀ rows : List UserAttempt, (L.map (fun a => a.id)).Nodup →
      L.foldl (fun rows a => rows.map (f a)) rows =
      rows.map (fun r =>
        match L.find? (fun x => r.id == x.id) with
        | some a => f a r
        | none => r) := by
  induction L with
  | nil =>
    intro rows _
    simp
  | cons a L ih =>
    intro rows hnodup
    rw [List.map_cons, List.nodup_cons] at hnodup
    rw [List.foldl_cons, ih (rows.map (f a)) hnodup.2, List.map_map]
    apply List.map_congr_left
    intro r _
    simp only [Function.comp_apply]
    by_cases hid : (r.id == a.id) = true
    · have hnone : L.find? (fun x => (f a r).id == x.id) = none := by
        rw [List.find?_eq_none]
        intro x hx hcon
        apply hnodup.1
        have hx1 : (f a r).id = x.id := by simpa using hcon
        rw [hkey] at hx1
        have hra : r.id = a.id := by simpa using hid
        rw [← hra, hx1]
        exact List.mem_map_of_mem _ hx
      simp only [List.find?, hid, hnone]
    · have hidf : (r.id == a.id) = false := by simpa using hid
      simp only [List.find?, hidf, hkeep a r hidf]

/-- `finalizedRow` rewrites only the award bookkeeping of a row. -/
theorem finalizedRow_fields (fbs : Int) (a : UserAttempt) :
    (finalizedRow fbs a).id = a.id ∧ (finalizedRow fbs a).userId = a.userId ∧
    (finalizedRow fbs a).problemId = a.problemId ∧ (finalizedRow fbs a).attempts = a.attempts ∧
    (finalizedRow fbs a).solved = a.solved := by
  unfold finalizedRow
  exact ⟨rfl, rfl, rfl, rfl, rfl⟩

/-- `unfinalizedRow` rewrites only the award bookkeeping of a row. -/
theorem unfinalizedRow_fields (a : UserAttempt) :
    (unfinalizedRow a).id = a.id ∧ (unfinalizedRow a).userId = a.userId ∧
    (unfinalizedRow a).problemId = a.problemId ∧ (unfinalizedRow a).attempts = a.attempts ∧
    (unfinalizedRow a).solved = a.solved := by
  unfold unfinalizedRow
  cases a.preFinalizeAwardedXp <;> exact ⟨rfl, rfl, rfl, rfl, rfl⟩

/-- The solved-row snapshot inherits duplicate-free ids from the table. -/
theorem solvedAttemptsFor_nodup (db : DB) (prob : Problem)
    (hids : (db.attempts.map (fun a => a.id)).Nodup) :
    ((solvedAttemptsFor db prob).map (fun a => a.id)).Nodup := by
  unfold solvedAttemptsFor
  exact hids.sublist ((List.filter_sublist _).map _)

/-- Membership in the solved-row snapshot is the filter predicate. -/
theorem mem_solvedAttemptsFor {db : DB} {prob : Problem} {a : UserAttempt} :
    a ∈ solvedAttemptsFor db prob ↔ a ∈ db.attempts ∧ (a.problemId == prob.id && a.solved) := by
  unfold solvedAttemptsFor
  rw [List.mem_filter]

/-- A successful finalize, fully characterized: the result record, and
the pointwise effect on each table. -/
theorem finalize_ok_spec (db : DB) (n : String) (prob : Problem)
    (hfind : db.problems.find? (fun p => p.number == n) = some prob)
    (hnf : prob.isFinalized = false)
    (hids : (db.attempts.map (fun a => a.id)).Nodup) :
    finalizeProblemScoring n db = .ok
      ({ problemNumber := prob.number,
         finalBaseScore := finalBaseOf db prob,
         weightedSolves := weightedSolvesOf db prob,
         adjustedUsers :=
           ((solvedAttemptsFor db prob).countP (isAdjustedRow (finalBaseOf db prob)) : Int),
         initializedUsers := ((solvedAttemptsFor db prob).countP isLegacyRow : Int) },
       { db with
         users :=
           (solvedAttemptsFor db prob).foldl (finalizeUserStep (finalBaseOf db prob)) db.users,
         attempts := db.attempts.map (fun r =>
           if r.problemId == prob.id && r.solved then finalizedRow (finalBaseOf db prob) r
           else r),
         problems := db.problems.map (fun p => if p.id == prob.id then
           { p with baseScore := finalBaseOf db prob, isFinalized := true } else p) }) := by
  unfold finalizeProblemScoring
  rw [hfind]
  simp only [hnf, Bool.false_eq_true, if_false]
  have hL : db.attempts.filter (fun a => a.problemId == prob.id && a.solved) =
      solvedAttemptsFor db prob := rfl
  have hfbs : getDynamicBaseFromWeightedSolves
      (((solvedAttemptsFor db prob).map (fun a => getSolveWeight a.attempts)).sum) =
      finalBaseOf db prob := rfl
  rw [hL, hfbs]
  obtain ⟨hu, hr, hp, h1, h2, h3, hc1, hc2⟩ :=
    finalize_foldl_spec (finalBaseOf db prob) (solvedAttemptsFor db prob) db 0 0
  have hrows : ((solvedAttemptsFor db prob).foldl (fun rows a => rows.map (fun r =>
      if r.id == a.id then
        { r with preFinalizeAwardedXp := some (baselineAwardOf a),
                 awardedXp := finalAwardOf (finalBaseOf db prob) a,
                 finalizeDelta := finalizeDeltaOf (finalBaseOf db prob) a }
      else r)) db.attempts) =
      db.attempts.map (fun r =>
        if r.problemId == prob.id && r.solved then finalizedRow (finalBaseOf db prob) r
        else r) := by
    rw [foldl_rowmap_eq_map _
      (by intro a r h; simp [h])
      (by
        intro a r
        by_cases h : (r.id == a.id) = true
        · simp [h]
        · simp [h])
      (solvedAttemptsFor db prob) db.attempts (solvedAttemptsFor_nodup db prob hids)]
    apply List.map_congr_left
    intro r hrmem
    by_cases hpred : (r.problemId == prob.id && r.solved) = true
    · have hmem : r ∈ solvedAttemptsFor db prob := mem_solvedAttemptsFor.mpr ⟨hrmem, hpred⟩
      have hfound := find?_key_of_mem_nodup (fun a => a.id)
        (solvedAttemptsFor_nodup db prob hids) hmem
      rw [hfound, hpred]
      simp [finalizedRow]
    · have hnone : (solvedAttemptsFor db prob).find? (fun x => r.id == x.id) = none := by
        rw [List.find?_eq_none]
        intro x hx hcon
        have hxid : r.id = x.id := by simpa using hcon
        have hxdb : x ∈ db.attempts := (mem_solvedAttemptsFor.mp hx).1
        have hrx : r = x :=
          List.inj_on_of_nodup_map hids hrmem hxdb hxid
        rw [hrx] at hpred
        exact hpred (mem_solvedAttemptsFor.mp hx).2
      rw [hnone]
      have hpredf : (r.problemId == prob.id && r.solved) = false := by
        simpa using hpred
      rw [hpredf]
      simp
  rw [hu, hr, hp, h1, h2, h3, hc1, hc2, hrows]
  norm_num
  rfl

/-- The unfinalize row rewrite changes neither which rows are solved nor
their attempt counts, so the recomputed weighted-solve total equals the
pre-unfinalize one. -/
theorem weighted_map_unfinalize (rows : List UserAttempt) (pid : String) :
    (((rows.map (fun r => if r.problemId == pid && r.solved then unfinalizedRow r else r)).filter
        (fun a => a.problemId == pid && a.solved)).map
      (fun a => getSolveWeight a.attempts)).sum =
    ((rows.filter (fun a => a.problemId == pid && a.solved)).map
      (fun a => getSolveWeight a.attempts)).sum := by
  rw [List.filter_map]
  have hpg : ((fun a : UserAttempt => a.problemId == pid && a.solved) ∘
      (fun r => if r.problemId == pid && r.solved then unfinalizedRow r else r)) =
      (fun a : UserAttempt => a.problemId == pid && a.solved) := by
    funext r
    simp only [Function.comp_apply]
    by_cases h : (r.problemId == pid && r.solved) = true
    · rw [if_pos h, (unfinalizedRow_fields r).2.2.1, (unfinalizedRow_fields r).2.2.2.2]
    · rw [if_neg h]
  rw [hpg, List.map_map]
  apply congrArg
  apply List.map_congr_left
  intro r hrmem
  simp only [Function.comp_apply]
  have hsolved := (List.mem_filter.mp hrmem).2
  rw [if_pos hsolved, (unfinalizedRow_fields r).2.2.2.1]

/-- A successful unfinalize, fully characterized: the result record, and
the pointwise effect on each table.  The restored base score is the
curve value at the (unchanged) current weighted-solve total. -/
theorem unfinalize_ok_spec (db : DB) (n : String) (prob : Problem)
    (hfind : db.problems.find? (fun p => p.number == n) = some prob)
    (hf : prob.isFinalized = true)
    (hids : (db.attempts.map (fun a => a.id)).Nodup) :
    unfinalizeProblemScoring n db = .ok
      ({ problemNumber := prob.number,
         restoredBaseScore := finalBaseOf db prob,
         revertedUsers := ((solvedAttemptsFor db prob).countP isRevertedRow : Int) },
       { db with
         users := (solvedAttemptsFor db prob).foldl unfinalizeUserStep db.users,
         attempts := db.attempts.map (fun r =>
           if r.problemId == prob.id && r.solved then unfinalizedRow r else r),
         problems := db.problems.map (fun p => if p.id == prob.id then
           { p with baseScore := finalBaseOf db prob, isFinalized := false } else p) }) := by
  unfold unfinalizeProblemScoring
  rw [hfind]
  simp only [hf, Bool.not_true, Bool.false_eq_true, if_false]
  have hL : db.attempts.filter (fun a => a.problemId == prob.id && a.solved) =
      solvedAttemptsFor db prob := rfl
  rw [hL]
  obtain ⟨hu, hr, hp, h1, h2, h3, hc⟩ := unfinalize_foldl_spec (solvedAttemptsFor db prob) db 0
  have hrows : ((solvedAttemptsFor db prob).foldl (fun rows a => rows.map (fun r =>
      match a.preFinalizeAwardedXp with
      | none => r
      | some pre => if r.id == a.id then
          { r with awardedXp := pre, preFinalizeAwardedXp := none, finalizeDelta := 0 }
        else r)) db.attempts) =
      db.attempts.map (fun r =>
        if r.problemId == prob.id && r.solved then unfinalizedRow r else r) := by
    rw [foldl_rowmap_eq_map _
      (by
        intro a r h
        cases hpre : a.preFinalizeAwardedXp
        · rfl
        · simp [h])
      (by
        intro a r
        cases hpre : a.preFinalizeAwardedXp
        · rfl
        · by_cases h : (r.id == a.id) = true
          · simp [h]
          · simp [h])
      (solvedAttemptsFor db prob) db.attempts (solvedAttemptsFor_nodup db prob hids)]
    apply List.map_congr_left
    intro r hrmem
    by_cases hpred : (r.problemId == prob.id && r.solved) = true
    · have hmem : r ∈ solvedAttemptsFor db prob := mem_solvedAttemptsFor.mpr ⟨hrmem, hpred⟩
      have hfound := find?_key_of_mem_nodup (fun a => a.id)
        (solvedAttemptsFor_nodup db prob hids) hmem
      rw [hfound, hpred]
      unfold unfinalizedRow
      cases hpre : r.preFinalizeAwardedXp
      · simp [hpre]
      · simp [hpre]
    · have hnone : (solvedAttemptsFor db prob).find? (fun x => r.id == x.id) = none := by
        rw [List.find?_eq_none]
        intro x hx hcon
        have hxid : r.id = x.id := by simpa using hcon
        have hxdb : x ∈ db.attempts := (mem_solvedAttemptsFor.mp hx).1
        have hrx : r = x := List.inj_on_of_nodup_map hids hrmem hxdb hxid
        rw [hrx] at hpred
        exact hpred (mem_solvedAttemptsFor.mp hx).2
      rw [hnone]
      have hpredf : (r.problemId == prob.id && r.solved) = false := by simpa using hpred
      rw [hpredf]
      simp
  have hw : getWeightedSolves prob.id
      ((solvedAttemptsFor db prob).foldl unfinalizeStep (db, 0)).1 = weightedSolvesOf db prob := by
    unfold getWeightedSolves
    rw [hr, hrows]
    exact weighted_map_unfinalize db.attempts prob.id
  rw [hw, hu, hr, hrows, hp, h1, h2, h3, hc]
  have hfbs : getDynamicBaseFromWeightedSolves (weightedSolvesOf db prob) = finalBaseOf db prob :=
    rfl
  rw [hfbs]
  norm_num

/-! ### Non-negativity of ledger balances -/

/-- The internal-key ledger adjustment clamps at zero, so it preserves
non-negativity of every balance. -/
theorem adjustUsersList_nonneg (uid : String) (delta : Int) (us : List User)
    (h : ∀ u ∈ us, 0 ≤ u.xp) : ∀ u ∈ adjustUsersList uid delta us, 0 ≤ u.xp := by
  unfold adjustUsersList
  rcases eq_or_ne delta 0 with h0 | h0
  · rw [if_pos h0]
    exact h
  · rw [if_neg h0]
    cases hf : us.find? (fun u => u.id == uid) with
    | none => exact h
    | some user =>
      intro u hu
      obtain ⟨v, hv, rfl⟩ := List.mem_map.mp hu
      by_cases hvid : (v.id == uid) = true
      · rw [if_pos hvid]
        exact le_max_left _ _
      · rw [if_neg hvid]
        exact h v hv

/-- `getOrCreateUser` creates balances at zero. -/
theorem getOrCreateUser_nonneg (d : String) (db : DB) (h : AllXpNonneg db) :
    AllXpNonneg (getOrCreateUser d db).2 := by
  unfold getOrCreateUser
  cases hf : db.users.find? (fun u => u.discordId == d) with
  | some u => exact h
  | none =>
    intro u hu
    rcases List.mem_append.mp hu with h1 | h1
    · exact h u h1
    · rw [List.mem_singleton] at h1
      rw [h1]

/-- `addXP` clamps at zero. -/
theorem addXP_nonneg (d : String) (amt : Int) (db : DB) (h : AllXpNonneg db) :
    AllXpNonneg (addXP d amt db).2 := by
  unfold addXP
  intro u hu
  simp only [] at hu
  obtain ⟨v, hv, rfl⟩ := List.mem_map.mp hu
  by_cases hvd : (v.discordId == d) = true
  · rw [if_pos hvd]
    exact le_max_left _ _
  · rw [if_neg hvd]
    exact getOrCreateUser_nonneg d db h v hv

/-- `removeXP` clamps at zero. -/
theorem removeXP_nonneg (d : String) (amt : Int) (db : DB) (h : AllXpNonneg db) :
    AllXpNonneg (removeXP d amt db).2 := by
  unfold removeXP
  intro u hu
  simp only [] at hu
  obtain ⟨v, hv, rfl⟩ := List.mem_map.mp hu
  by_cases hvd : (v.discordId == d) = true
  · rw [if_pos hvd]
    exact le_max_left _ _
  · rw [if_neg hvd]
    exact getOrCreateUser_nonneg d db h v hv

/-- One finalize-loop iteration preserves non-negativity. -/
theorem finalizeUserStep_nonneg (fbs : Int) (us : List User) (a : UserAttempt)
    (h : ∀ u ∈ us, 0 ≤ u.xp) : ∀ u ∈ finalizeUserStep fbs us a, 0 ≤ u.xp := by
  unfold finalizeUserStep
  by_cases h0 : baselineAwardOf a = 0
  · rw [if_pos h0]
    exact h
  · rw [if_neg h0]
    by_cases hδ : finalAwardOf fbs a - baselineAwardOf a ≠ 0
    · rw [if_pos hδ]
      exact adjustUsersList_nonneg _ _ _ h
    · rw [if_neg hδ]
      exact h

/-- The whole finalize loop preserves non-negativity. -/
theorem foldl_finalizeUserStep_nonneg (fbs : Int) (L : List UserAttempt) :
    ∀ us : List User, (∀ u ∈ us, 0 ≤ u.xp) →
      ∀ u ∈ L.foldl (finalizeUserStep fbs) us, 0 ≤ u.xp := by
  induction L with
  | nil => intro us h; exact h
  | cons a L ih =>
    intro us h
    rw [List.foldl_cons]
    exact ih _ (finalizeUserStep_nonneg fbs us a h)

/-- One unfinalize-loop iteration preserves non-negativity. -/
theorem unfinalizeUserStep_nonneg (us : List User) (a : UserAttempt)
    (h : ∀ u ∈ us, 0 ≤ u.xp) : ∀ u ∈ unfinalizeUserStep us a, 0 ≤ u.xp := by
  unfold unfinalizeUserStep
  cases hpre : a.preFinalizeAwardedXp with
  | none => exact h
  | some pre =>
    by_cases hδ : -a.finalizeDelta ≠ 0
    · rw [if_pos hδ]
      exact adjustUsersList_nonneg _ _ _ h
    · rw [if_neg hδ]
      exact h

/-- The whole unfinalize loop preserves non-negativity. -/
theorem foldl_unfinalizeUserStep_nonneg (L : List UserAttempt) :
    ∀ us : List User, (∀ u ∈ us, 0 ≤ u.xp) →
      ∀ u ∈ L.foldl unfinalizeUserStep us, 0 ≤ u.xp := by
  induction L with
  | nil => intro us h; exact h
  | cons a L ih =>
    intro us h
    rw [List.foldl_cons]
    exact ih _ (unfinalizeUserStep_nonneg us a h)

/-- A successful finalize preserves non-negativity of every balance. -/
theorem finalize_ok_nonneg {n : String} {db : DB} {pr : FinalizeProblemResult × DB}
    (h : finalizeProblemScoring n db = .ok pr) (hx : AllXpNonneg db) :
    AllXpNonneg pr.2 := by
  unfold finalizeProblemScoring at h
  cases hf : db.problems.find? (fun p => p.number == n) with
  | none =>
    rw [hf] at h
    simp at h
  | some prob =>
    rw [hf] at h
    by_cases hfin : prob.isFinalized = true
    · simp [hfin] at h
    · simp only [hfin, Bool.false_eq_true, if_false, Except.ok.injEq] at h
      subst h
      intro u hu
      dsimp only [] at hu
      obtain ⟨hu', _, _, _, _, _, _, _⟩ :=
        finalize_foldl_spec
          (getDynamicBaseFromWeightedSolves
            (((db.attempts.filter (fun a => a.problemId == prob.id && a.solved)).map
              (fun a => getSolveWeight a.attempts)).sum))
          (db.attempts.filter (fun a => a.problemId == prob.id && a.solved)) db 0 0
      rw [hu'] at hu
      exact foldl_finalizeUserStep_nonneg _ _ db.users hx u hu

/-- A successful unfinalize preserves non-negativity of every balance. -/
theorem unfinalize_ok_nonneg {n : String} {db : DB} {pr : UnfinalizeProblemResult × DB}
    (h : unfinalizeProblemScoring n db = .ok pr) (hx : AllXpNonneg db) :
    AllXpNonneg pr.2 := by
  unfold unfinalizeProblemScoring at h
  cases hf : db.problems.find? (fun p => p.number == n) with
  | none =>
    rw [hf] at h
    simp at h
  | some prob =>
    rw [hf] at h
    by_cases hfin : prob.isFinalized = true
    · simp only [hfin, Bool.not_true, Bool.false_eq_true, if_false, Except.ok.injEq] at h
      subst h
      intro u hu
      dsimp only [] at hu
      obtain ⟨hu', _, _, _, _, _, _⟩ :=
        unfinalize_foldl_spec
          (db.attempts.filter (fun a => a.problemId == prob.id && a.solved)) db 0
      rw [hu'] at hu
      exact foldl_unfinalizeUserStep_nonneg _ db.users hx u hu
    · simp [hfin] at h

/-- A successful reset leaves the users table unchanged. -/
theorem reset_ok_users {n : String} {db : DB} {pr : ResetProblemResult × DB}
    (h : resetProblemStats n db = .ok pr) : pr.2.users = db.users := by
  unfold resetProblemStats at h
  cases hf : db.problems.find? (fun p => p.number == n) with
  | none =>
    rw [hf] at h
    simp at h
  | some prob =>
    rw [hf] at h
    simp only [Except.ok.injEq] at h
    subst h
    rfl

/-- The tail of a recorded attempt preserves non-negativity. -/
theorem recordAttemptAfterBackfill_nonneg (uid : String) (c : Bool) (problem : Problem)
    (db : DB) (hx : AllXpNonneg db) :
    AllXpNonneg (recordAttemptAfterBackfill uid c problem db).2 := by
  unfold recordAttemptAfterBackfill
  dsimp only []
  cases hfa : (getOrCreateUser uid db).2.attempts.find?
      (fun a => a.userId == (getOrCreateUser uid db).1.id && a.problemId == problem.id) with
  | some row =>
    dsimp only []
    by_cases hns : (c && !row.solved) = true
    · simp only [hns, if_true]
      exact addXP_nonneg _ _ _ (getOrCreateUser_nonneg uid db hx)
    · simp only [hns, if_false]
      exact getOrCreateUser_nonneg uid db hx
  | none =>
    dsimp only []
    by_cases hns : (c && !false) = true
    · simp only [hns, if_true]
      exact addXP_nonneg _ _ _ (getOrCreateUser_nonneg uid db hx)
    · simp only [hns, if_false]
      exact getOrCreateUser_nonneg uid db hx

/-- A successful recorded attempt preserves non-negativity. -/
theorem recordAttempt_ok_nonneg {sheet : String → Option Int} {uid n : String} {c : Bool}
    {db : DB} {pr : AttemptResult × DB}
    (h : recordAttempt sheet uid n c db = .ok pr) (hx : AllXpNonneg db) :
    AllXpNonneg pr.2 := by
  have core : ∀ (problem : Problem) (db0 : DB), AllXpNonneg db0 →
      recordAttemptCore sheet uid n c problem db0 = .ok pr → AllXpNonneg pr.2 := by
    intro problem db0 hx0 hc
    unfold recordAttemptCore at hc
    by_cases hfin : problem.isFinalized = true
    · simp [hfin] at hc
    · simp only [hfin, Bool.false_eq_true, if_false] at hc
      by_cases hle : problem.originalBaseScore ≤ 0
      · rw [if_pos hle] at hc
        cases hs : sheet n with
        | none =>
          rw [hs] at hc
          simp at hc
        | some fb =>
          rw [hs] at hc
          simp only [Except.ok.injEq] at hc
          rw [← hc]
          exact recordAttemptAfterBackfill_nonneg _ _ _ _ hx0
      · rw [if_neg hle] at hc
        simp only [Except.ok.injEq] at hc
        rw [← hc]
        exact recordAttemptAfterBackfill_nonneg _ _ _ _ hx0
  unfold recordAttempt at h
  cases hf : db.problems.find? (fun p => p.number == n) with
  | some problem =>
    rw [hf] at h
    dsimp only [] at h
    exact core problem db hx h
  | none =>
    rw [hf] at h
    cases hs : sheet n with
    | none =>
      rw [hs] at h
      simp at h
    | some obs =>
      rw [hs] at h
      dsimp only [] at h
      refine core _ _ ?_ h
      exact hx

/-- One entry point preserves non-negativity of every balance. -/
theorem runOp_nonneg (sheet : String → Option Int) (db : DB) (op : Op)
    (hx : AllXpNonneg db) : AllXpNonneg (runOp sheet db op) := by
  cases op with
  | addXPOp d amt => exact addXP_nonneg d amt db hx
  | removeXPOp d amt => exact removeXP_nonneg d amt db hx
  | adjustOp uid delta =>
    show AllXpNonneg (adjustUserXPByDbId uid delta db)
    rw [adjustUserXPByDbId_components]
    exact adjustUsersList_nonneg uid delta db.users hx
  | getOrCreateOp d => exact getOrCreateUser_nonneg d db hx
  | recordAttemptOp uid n c =>
    show AllXpNonneg (match recordAttempt sheet uid n c db with
      | .ok r => r.2
      | .error _ => db)
    cases h : recordAttempt sheet uid n c db with
    | error e => exact hx
    | ok r => exact recordAttempt_ok_nonneg h hx
  | finalizeOp n =>
    show AllXpNonneg (match finalizeProblemScoring n db with
      | .ok r => r.2
      | .error _ => db)
    cases h : finalizeProblemScoring n db with
    | error e => exact hx
    | ok r => exact finalize_ok_nonneg h hx
  | unfinalizeOp n =>
    show AllXpNonneg (match unfinalizeProblemScoring n db with
      | .ok r => r.2
      | .error _ => db)
    cases h : unfinalizeProblemScoring n db with
    | error e => exact hx
    | ok r => exact unfinalize_ok_nonneg h hx
  | resetOp n =>
    show AllXpNonneg (match resetProblemStats n db with
      | .ok r => r.2
      | .error _ => db)
    cases h : resetProblemStats n db with
    | error e => exact hx
    | ok r =>
      intro u hu
      rw [reset_ok_users h] at hu
      exact hx u hu

/-! ### Pointwise form of the ledger loops (duplicate-free user ids) -/

/-- `finalizeUserPoint` keeps the user's id. -/
theorem finalizeUserPoint_id (fbs : Int) (a : UserAttempt) (u : User) :
    (finalizeUserPoint fbs a u).id = u.id := by
  unfold finalizeUserPoint
  by_cases h0 : baselineAwardOf a = 0
  · rw [if_pos h0]
  · rw [if_neg h0]
    by_cases hδ : finalAwardOf fbs a - baselineAwardOf a ≠ 0
    · rw [if_pos hδ]
      by_cases hid : (u.id == a.userId) = true
      · rw [if_pos hid]
      · rw [if_neg hid]
    · rw [if_neg hδ]

/-- `unfinalizeUserPoint` keeps the user's id. -/
theorem unfinalizeUserPoint_id (a : UserAttempt) (u : User) :
    (unfinalizeUserPoint a u).id = u.id := by
  unfold unfinalizeUserPoint
  cases hpre : a.preFinalizeAwardedXp with
  | none => rfl
  | some pre =>
    by_cases hδ : -a.finalizeDelta ≠ 0
    · rw [if_pos hδ]
      by_cases hid : (u.id == a.userId) = true
      · rw [if_pos hid]
      · rw [if_neg hid]
    · rw [if_neg hδ]

/-- A pointwise user map that keeps ids keeps the id column. -/
theorem map_id_of_point {f : User → User} (hkey : ∀ u, (f u).id = u.id) (us : List User) :
    (us.map f).map (fun u => u.id) = us.map (fun u => u.id) := by
  rw [List.map_map]
  apply List.map_congr_left
  intro u _
  exact hkey u

/-- With duplicate-free user ids and a non-zero delta, the ledger
adjustment is a pointwise map. -/
theorem adjustUsersList_ptwise (uid : String) (delta : Int) (us : List User)
    (hδ : delta ≠ 0) (hids : (us.map (fun u => u.id)).Nodup) :
    adjustUsersList uid delta us =
      us.map (fun u => if u.id == uid then { u with xp := max 0 (u.xp + delta) } else u) := by
  unfold adjustUsersList
  rw [if_neg hδ]
  cases hf : us.find? (fun u => u.id == uid) with
  | none =>
    rw [List.find?_eq_none] at hf
    have hid : ∀ u ∈ us,
        (if u.id == uid then { u with xp := max 0 (u.xp + delta) } else u) = u := by
      intro u hu
      rw [if_neg (hf u hu)]
    rw [List.map_congr_left hid]
    simp
  | some u0 =>
    have hu0mem := List.mem_of_find?_eq_some hf
    apply List.map_congr_left
    intro u hu
    by_cases hid : (u.id == uid) = true
    · have hu0id := List.find?_some hf
      have heq : u = u0 := by
        apply List.inj_on_of_nodup_map hids hu hu0mem
        have h1 : u.id = uid := by simpa using hid
        have h2 : u0.id = uid := by simpa using hu0id
        rw [h1, h2]
      rw [if_pos hid, if_pos hid, heq]
    · rw [if_neg hid, if_neg hid]

/-- With duplicate-free user ids, one finalize-loop iteration is the
pointwise map of `finalizeUserPoint`. -/
theorem finalizeUserStep_ptwise (fbs : Int) (us : List User) (a : UserAttempt)
    (hids : (us.map (fun u => u.id)).Nodup) :
    finalizeUserStep fbs us a = us.map (finalizeUserPoint fbs a) := by
  unfold finalizeUserStep finalizeUserPoint
  by_cases h0 : baselineAwardOf a = 0
  · simp [h0]
  · by_cases hδ : finalAwardOf fbs a - baselineAwardOf a ≠ 0
    · simp only [if_neg h0, if_pos hδ]
      exact adjustUsersList_ptwise a.userId _ us hδ hids
    · simp [h0, hδ]

/-- With duplicate-free user ids, one unfinalize-loop iteration is the
pointwise map of `unfinalizeUserPoint`. -/
theorem unfinalizeUserStep_ptwise (us : List User) (a : UserAttempt)
    (hids : (us.map (fun u => u.id)).Nodup) :
    unfinalizeUserStep us a = us.map (unfinalizeUserPoint a) := by
  unfold unfinalizeUserStep unfinalizeUserPoint
  cases hpre : a.preFinalizeAwardedXp with
  | none => simp [hpre]
  | some pre =>
    by_cases hδ : -a.finalizeDelta ≠ 0
    · simp only [hpre, if_pos hδ]
      exact adjustUsersList_ptwise a.userId _ us hδ hids
    · simp [hpre, hδ]

/-- With duplicate-free user ids, the whole finalize ledger loop is an
iterated pointwise map. -/
theorem foldl_finalizeUserStep_eq_mapfold (fbs : Int) (L : List UserAttempt) :
    ∀ us : List User, (us.map (fun u => u.id)).Nodup →
      L.foldl (finalizeUserStep fbs) us =
      L.foldl (fun us a => us.map (finalizeUserPoint fbs a)) us := by
  induction L with
  | nil => intro us _; rfl
  | cons a L ih =>
    intro us h
    rw [List.foldl_cons, List.foldl_cons, finalizeUserStep_ptwise fbs us a h]
    apply ih
    rw [map_id_of_point (finalizeUserPoint_id fbs a) us]
    exact h

/-- With duplicate-free user ids, the whole unfinalize ledger loop is an
iterated pointwise map. -/
theorem foldl_unfinalizeUserStep_eq_mapfold (L : List UserAttempt) :
    ∀ us : List User, (us.map (fun u => u.id)).Nodup →
      L.foldl unfinalizeUserStep us =
      L.foldl (fun us a => us.map (unfinalizeUserPoint a)) us := by
  induction L with
  | nil => intro us _; rfl
  | cons a L ih =>
    intro us h
    rw [List.foldl_cons, List.foldl_cons, unfinalizeUserStep_ptwise us a h]
    apply ih
    rw [map_id_of_point (unfinalizeUserPoint_id a) us]
    exact h

/-- Iterated pointwise user maps driven by a snapshot with
duplicate-free user ids collapse to one pointwise rewrite. -/
theorem foldl_usermap_eq_map (f : UserAttempt → User → User)
    (hkeep : ∀ a u, (u.id == a.userId) = false → f a u = u)
    (hkey : ∀ a u, (f a u).id = u.id)
    (L : List UserAttempt) :
    ∀ us : List User, (L.map (fun a => a.userId)).Nodup →
      L.foldl (fun us a => us.map (f a)) us =
      us.map (fun u =>
        match L.find? (fun x => u.id == x.userId) with
        | some a => f a u
        | none => u) := by
  induction L with
  | nil =>
    intro us _
    simp
  | cons a L ih =>
    intro us hnodup
    rw [List.map_cons, List.nodup_cons] at hnodup
    rw [List.foldl_cons, ih (us.map (f a)) hnodup.2, List.map_map]
    apply List.map_congr_left
    intro u _
    simp only [Function.comp_apply]
    by_cases hid : (u.id == a.userId) = true
    · have hnone : L.find? (fun x => (f a u).id == x.userId) = none := by
        rw [List.find?_eq_none]
        intro x hx hcon
        apply hnodup.1
        have hx1 : (f a u).id = x.userId := by simpa using hcon
        rw [hkey] at hx1
        have hua : u.id = a.userId := by simpa using hid
        rw [← hua, hx1]
        exact List.mem_map_of_mem _ hx
      simp only [List.find?, hid, hnone]
    · have hidf : (u.id == a.userId) = false := by simpa using hid
      simp only [List.find?, hidf, hkeep a u hidf]

/-- `finalizeUserPoint` only touches the row's solver. -/
theorem finalizeUserPoint_keep (fbs : Int) (a : UserAttempt) (u : User)
    (h : (u.id == a.userId) = false) : finalizeUserPoint fbs a u = u := by
  unfold finalizeUserPoint
  by_cases h0 : baselineAwardOf a = 0
  · rw [if_pos h0]
  · rw [if_neg h0]
    by_cases hδ : finalAwardOf fbs a - baselineAwardOf a ≠ 0
    · rw [if_pos hδ, if_neg (by simp [h])]
    · rw [if_neg hδ]

/-- `unfinalizeUserPoint` only touches the row's solver. -/
theorem unfinalizeUserPoint_keep (a : UserAttempt) (u : User)
    (h : (u.id == a.userId) = false) : unfinalizeUserPoint a u = u := by
  unfold unfinalizeUserPoint
  cases hpre : a.preFinalizeAwardedXp with
  | none => rfl
  | some pre =>
    by_cases hδ : -a.finalizeDelta ≠ 0
    · rw [if_pos hδ, if_neg (by simp [h])]
    · rw [if_neg hδ]

/-- Un-pricing the finalized row undoes pricing the live row, pointwise
on its solver, provided the balance is non-negative and the forward
delta does not clamp. -/
theorem point_roundtrip (fbs : Int) (a : UserAttempt) (u : User)
    (hnn : 0 ≤ u.xp)
    (hnc : baselineAwardOf a ≠ 0 → u.id = a.userId →
      0 ≤ u.xp + (finalAwardOf fbs a - baselineAwardOf a)) :
    unfinalizeUserPoint (finalizedRow fbs a) (finalizeUserPoint fbs a u) = u := by
  by_cases h0 : baselineAwardOf a = 0
  · unfold finalizeUserPoint
    rw [if_pos h0]
    unfold unfinalizeUserPoint finalizedRow
    simp [finalizeDeltaOf, h0]
  · by_cases hδ : finalAwardOf fbs a - baselineAwardOf a ≠ 0
    · by_cases hid : (u.id == a.userId) = true
      · have hid' : u.id = a.userId := by simpa using hid
        have h1 : 0 ≤ u.xp + (finalAwardOf fbs a - baselineAwardOf a) := hnc h0 hid'
        unfold finalizeUserPoint
        rw [if_neg h0, if_pos hδ, if_pos hid]
        unfold unfinalizeUserPoint finalizedRow
        simp only [finalizeDeltaOf, if_neg h0]
        rw [if_pos (by omega)]
        rw [if_pos (by simpa using hid)]
        have h2 : max 0 (u.xp + (finalAwardOf fbs a - baselineAwardOf a)) =
            u.xp + (finalAwardOf fbs a - baselineAwardOf a) := max_eq_right h1
        rw [h2]
        have h3 : u.xp + (finalAwardOf fbs a - baselineAwardOf a) +
            -(finalAwardOf fbs a - baselineAwardOf a) = u.xp := by ring
        rw [h3, max_eq_right hnn]
      · have hidf : (u.id == a.userId) = false := by simpa using hid
        rw [finalizeUserPoint_keep fbs a u hidf]
        apply unfinalizeUserPoint_keep
        rw [(finalizedRow_fields fbs a).2.1]
        exact hidf
    · unfold finalizeUserPoint
      rw [if_neg h0, if_neg hδ]
      unfold unfinalizeUserPoint finalizedRow
      simp only [finalizeDeltaOf, if_neg h0]
      rw [if_neg (by omega)]

/-- After finalize's row rewrite, the solved rows of the problem are the
finalized versions of the pre-finalize solved rows, in order. -/
theorem solved_after_finalize_map (db : DB) (prob : Problem) (fbs : Int) :
    ((db.attempts.map (fun r =>
        if r.problemId == prob.id && r.solved then finalizedRow fbs r else r)).filter
      (fun a => a.problemId == prob.id && a.solved)) =
    (solvedAttemptsFor db prob).map (finalizedRow fbs) := by
  rw [List.filter_map]
  have hpg : ((fun a : UserAttempt => a.problemId == prob.id && a.solved) ∘
      (fun r => if r.problemId == prob.id && r.solved then finalizedRow fbs r else r)) =
      (fun a : UserAttempt => a.problemId == prob.id && a.solved) := by
    funext r
    simp only [Function.comp_apply]
    by_cases h : (r.problemId == prob.id && r.solved) = true
    · rw [if_pos h, (finalizedRow_fields fbs r).2.2.1, (finalizedRow_fields fbs r).2.2.2.2]
    · rw [if_neg h]
  rw [hpg]
  unfold solvedAttemptsFor
  apply List.map_congr_left
  intro r hr
  rw [if_pos (List.mem_filter.mp hr).2]

/-- Finalize's ledger pass followed by unfinalize's pass over the
finalized snapshot restores the users table exactly, provided user ids
are duplicate-free, at most one solved row names each user, every
balance is non-negative, and no forward delta clamps at zero. -/
theorem users_roundtrip (fbs : Int) (L : List UserAttempt)
    (hdup : (L.map (fun a => a.userId)).Nodup)
    (us : List User) (hids : (us.map (fun u => u.id)).Nodup)
    (hnn : ∀ u ∈ us, 0 ≤ u.xp)
    (hnc : ∀ a ∈ L, baselineAwardOf a ≠ 0 → ∀ u ∈ us, u.id = a.userId →
      0 ≤ u.xp + (finalAwardOf fbs a - baselineAwardOf a)) :
    (L.map (finalizedRow fbs)).foldl unfinalizeUserStep (L.foldl (finalizeUserStep fbs) us)
      = us := by
  rw [foldl_finalizeUserStep_eq_mapfold fbs L us hids]
  rw [foldl_usermap_eq_map (finalizeUserPoint fbs) (finalizeUserPoint_keep fbs)
    (finalizeUserPoint_id fbs) L us hdup]
  have hids1 : ((us.map (fun u =>
      match L.find? (fun x => u.id == x.userId) with
      | some a => finalizeUserPoint fbs a u
      | none => u)).map (fun u => u.id)).Nodup := by
    rw [map_id_of_point ?hk us]
    · exact hids
    case hk =>
      intro u
      cases hf : L.find? (fun x => u.id == x.userId) with
      | none => simp [hf]
      | some a => simp [hf, finalizeUserPoint_id]
  rw [foldl_unfinalizeUserStep_eq_mapfold (L.map (finalizedRow fbs)) _ hids1]
  have hdup1 : ((L.map (finalizedRow fbs)).map (fun a => a.userId)).Nodup := by
    rw [List.map_map]
    have : ((fun a : UserAttempt => a.userId) ∘ finalizedRow fbs) =
        (fun a : UserAttempt => a.userId) := by
      funext a
      exact (finalizedRow_fields fbs a).2.1
    rw [this]
    exact hdup
  rw [foldl_usermap_eq_map unfinalizeUserPoint unfinalizeUserPoint_keep
    unfinalizeUserPoint_id (L.map (finalizedRow fbs)) _ hdup1]
  rw [List.map_map]
  have hpt : ∀ u ∈ us, ((fun u =>
      match (L.map (finalizedRow fbs)).find? (fun x => u.id == x.userId) with
      | some a => unfinalizeUserPoint a u
      | none => u) ∘ (fun u =>
      match L.find? (fun x => u.id == x.userId) with
      | some a => finalizeUserPoint fbs a u
      | none => u)) u = u := by
    intro u hu
    simp only [Function.comp_apply]
    cases hf : L.find? (fun x => u.id == x.userId) with
    | none =>
      have hf2 : (L.map (finalizedRow fbs)).find? (fun x => u.id == x.userId) = none := by
        rw [List.find?_map]
        have : ((fun x : UserAttempt => u.id == x.userId) ∘ finalizedRow fbs) =
            (fun x : UserAttempt => u.id == x.userId) := by
          funext x
          simp [(finalizedRow_fields fbs x).2.1]
        rw [this, hf]
        rfl
      rw [hf2]
    | some a =>
      have hf2 : (L.map (finalizedRow fbs)).find?
          (fun x => (finalizeUserPoint fbs a u).id == x.userId) = some (finalizedRow fbs a) := by
        rw [List.find?_map]
        have : ((fun x : UserAttempt => (finalizeUserPoint fbs a u).id == x.userId) ∘
            finalizedRow fbs) = (fun x : UserAttempt => u.id == x.userId) := by
          funext x
          simp [(finalizedRow_fields fbs x).2.1, finalizeUserPoint_id]
        rw [this, hf]
        rfl
      rw [hf2]
      exact point_roundtrip fbs a u (hnn u hu)
        (fun hb hid => hnc a (List.mem_of_find?_eq_some hf) hb u hu hid)
  calc us.map _ = us.map id := List.map_congr_left (fun u hu => hpt u hu)
  _ = us := List.map_id us

/-- Claim C1 (amended): finalize then unfinalize with no intervening
attempts restores every `UserAttempt` row's `awardedXp` exactly; every
user's xp balance is restored exactly provided no solver's balance
clamps at zero during finalize (pre-finalize `xp + finalizeDelta ≥ 0`
for every solver with a non-zero baseline) — a balance that does clamp
ends at `−finalizeDelta` instead (see the counterexample).  The
primary-key and reachable-state hypotheses: duplicate-free row ids and
user ids, at most one solved row per user for the problem, no stale
pre-finalize snapshots, and non-negative balances. -/
theorem C1_theorem (db : DB) (n : String) (prob : Problem)
    (hfind : db.problems.find? (fun p => p.number == n) = some prob)
    (hnf : prob.isFinalized = false)
    (hids : (db.attempts.map (fun a => a.id)).Nodup)
    (huids : (db.users.map (fun u => u.id)).Nodup)
    (hdup : ((solvedAttemptsFor db prob).map (fun a => a.userId)).Nodup)
    (hpre : ∀ a ∈ db.attempts, a.problemId = prob.id → a.solved = true →
      a.preFinalizeAwardedXp = none)
    (hnn : AllXpNonneg db)
    (hnc : ∀ a ∈ solvedAttemptsFor db prob, baselineAwardOf a ≠ 0 → ∀ u ∈ db.users,
      u.id = a.userId →
      0 ≤ u.xp + (finalAwardOf (finalBaseOf db prob) a - baselineAwardOf a)) :
    ∃ r1 db1 r2 db2,
      finalizeProblemScoring n db = .ok (r1, db1) ∧
      unfinalizeProblemScoring n db1 = .ok (r2, db2) ∧
      db2.users = db.users ∧
      db2.attempts.map (fun a => (a.id, a.awardedXp)) =
        db.attempts.map (fun a => (a.id, a.awardedXp)) := by
  have h1 := finalize_ok_spec db n prob hfind hnf hids
  set fbs := finalBaseOf db prob with hfbs
  set db1 : DB := { db with
      users := (solvedAttemptsFor db prob).foldl (finalizeUserStep fbs) db.users,
      attempts := db.attempts.map (fun r =>
        if r.problemId == prob.id && r.solved then finalizedRow fbs r else r),
      problems := db.problems.map (fun p => if p.id == prob.id then
        { p with baseScore := fbs, isFinalized := true } else p) } with hdb1
  have hfind1 : db1.problems.find? (fun p => p.number == n) =
      some { prob with baseScore := fbs, isFinalized := true } := by
    show (db.problems.map (fun p => if p.id == prob.id then
        { p with baseScore := fbs, isFinalized := true } else p)).find?
        (fun p => p.number == n) = _
    rw [List.find?_map]
    have hk : ((fun p : Problem => p.number == n) ∘ (fun p => if p.id == prob.id then
        { p with baseScore := fbs, isFinalized := true } else p)) =
        (fun p : Problem => p.number == n) := by
      funext p
      simp only [Function.comp_apply]
      by_cases hp : (p.id == prob.id) = true
      · rw [if_pos hp]
      · rw [if_neg hp]
    rw [hk, hfind]
    simp
  have hids1 : (db1.attempts.map (fun a => a.id)).Nodup := by
    show ((db.attempts.map (fun r =>
        if r.problemId == prob.id && r.solved then finalizedRow fbs r else r)).map
        (fun a => a.id)).Nodup
    rw [List.map_map]
    have hcomp : ((fun a : UserAttempt => a.id) ∘ (fun r =>
        if r.problemId == prob.id && r.solved then finalizedRow fbs r else r)) =
        (fun a : UserAttempt => a.id) := by
      funext r
      simp only [Function.comp_apply]
      by_cases h : (r.problemId == prob.id && r.solved) = true
      · rw [if_pos h]
        exact (finalizedRow_fields fbs r).1
      · rw [if_neg h]
    rw [hcomp]
    exact hids
  have h2 := unfinalize_ok_spec db1 n { prob with baseScore := fbs, isFinalized := true }
    hfind1 rfl hids1
  refine ⟨_, db1, _, _, h1, h2, ?_, ?_⟩
  · show (solvedAttemptsFor db1 { prob with baseScore := fbs, isFinalized := true }).foldl
        unfinalizeUserStep db1.users = db.users
    have hsnap : solvedAttemptsFor db1 { prob with baseScore := fbs, isFinalized := true } =
        (solvedAttemptsFor db prob).map (finalizedRow fbs) :=
      solved_after_finalize_map db prob fbs
    rw [hsnap]
    show ((solvedAttemptsFor db prob).map (finalizedRow fbs)).foldl unfinalizeUserStep
        ((solvedAttemptsFor db prob).foldl (finalizeUserStep fbs) db.users) = db.users
    exact users_roundtrip fbs (solvedAttemptsFor db prob) hdup db.users huids hnn hnc
  · show ((db1.attempts.map (fun r =>
        if r.problemId == { prob with baseScore := fbs, isFinalized := true }.id && r.solved
        then unfinalizedRow r else r)).map (fun a => (a.id, a.awardedXp))) =
        db.attempts.map (fun a => (a.id, a.awardedXp))
    show (((db.attempts.map (fun r =>
        if r.problemId == prob.id && r.solved then finalizedRow fbs r else r)).map (fun r =>
        if r.problemId == prob.id && r.solved then unfinalizedRow r else r)).map
        (fun a => (a.id, a.awardedXp))) = db.attempts.map (fun a => (a.id, a.awardedXp))
    rw [List.map_map, List.map_map]
    apply List.map_congr_left
    intro r hr
    simp only [Function.comp_apply]
    by_cases h : (r.problemId == prob.id && r.solved) = true
    · rw [if_pos h]
      have hfld := finalizedRow_fields fbs r
      have hpredrow : ((finalizedRow fbs r).problemId == prob.id &&
          (finalizedRow fbs r).solved) = true := by
        rw [hfld.2.2.1, hfld.2.2.2.2]
        exact h
      rw [if_pos hpredrow]
      have hps : r.problemId = prob.id ∧ r.solved = true := by
        constructor
        · have := (List.mem_filter.mp (mem_solvedAttemptsFor.mpr ⟨hr, h⟩)).2
          simp at h
          exact h.1
        · simp at h
          exact h.2
      have hpre_r : r.preFinalizeAwardedXp = none := hpre r hr hps.1 hps.2
      show ((unfinalizedRow (finalizedRow fbs r)).id,
        (unfinalizedRow (finalizedRow fbs r)).awardedXp) = (r.id, r.awardedXp)
      unfold unfinalizedRow finalizedRow
      simp only []
      unfold baselineAwardOf
      rw [hpre_r]
      rfl
    · rw [if_neg h, if_neg h]

/-- Claim C1 counterexample: finalize followed by unfinalize is *not* a
ledger no-op when a balance clamps at zero.  On `cexDb` the solver holds
5 XP but their solved row carries a historical 100-XP award; finalize
re-prices the award to the curve value (between 25 and 26), a delta of
at most −74, so `max 0 (5 + delta)` clamps the balance at 0; unfinalize
then adds the delta back and the balance ends at 74 or 75 — not 5. -/
theorem C1_counterexample :
    ∃ r1 db1 r2 db2,
      finalizeProblemScoring "8" cexDb = Except.ok (r1, db1) ∧
      unfinalizeProblemScoring "8" db1 = Except.ok (r2, db2) ∧
      cexDb.users = [{ id := "u1", discordId := "d1", xp := 5 }] ∧
      ∀ u ∈ db2.users, 74 ≤ u.xp := by
  have h1 := finalize_ok_spec cexDb "8" cexProblem rfl rfl (by decide)
  set fbs := finalBaseOf cexDb cexProblem with hfbsdef
  have hw : weightedSolvesOf cexDb cexProblem = 1 := by
    simp [weightedSolvesOf, solvedAttemptsFor, cexDb, cexProblem, cexRow,
      getSolveWeight, getWrongAttempts, SCORE_DECAY, MAX_WRONG_ATTEMPTS, List.filter]
  have hfbs1 : fbs = getDynamicBaseFromWeightedSolves 1 := by
    rw [hfbsdef]
    unfold finalBaseOf
    rw [hw]
  have hge : 25 ≤ fbs := by
    rw [hfbs1]
    have h := getDynamicBase_ge 1
    unfold MIN_DYNAMIC_BASE_SCORE at h
    exact h
  have hle : fbs ≤ 26 := by
    rw [hfbs1]
    exact getDynamicBase_one_le
  have hfa : finalAwardOf fbs cexRow = fbs := by
    unfold finalAwardOf
    have hsw : getSolveWeight cexRow.attempts = 1 := by
      simp [getSolveWeight, getWrongAttempts, SCORE_DECAY, MAX_WRONG_ATTEMPTS, cexRow]
    rw [hsw, mul_one, Int.floor_intCast]
  have hbase : baselineAwardOf cexRow = 100 := rfl
  have hδ : finalAwardOf fbs cexRow - baselineAwardOf cexRow = fbs - 100 := by
    rw [hfa, hbase]
  have hus1 : (solvedAttemptsFor cexDb cexProblem).foldl (finalizeUserStep fbs) cexDb.users =
      [{ id := "u1", discordId := "d1", xp := 0 }] := by
    show finalizeUserStep fbs cexDb.users cexRow = _
    unfold finalizeUserStep
    rw [if_neg (by rw [hbase]; norm_num)]
    rw [if_pos (by rw [hδ]; omega)]
    unfold adjustUsersList
    rw [if_neg (by rw [hδ]; omega)]
    have hfindu : cexDb.users.find? (fun u => u.id == cexRow.userId) = some cexUser := rfl
    rw [hfindu]
    dsimp only []
    show [if cexUser.id == cexRow.userId then
      { cexUser with xp := max 0 (cexUser.xp + (finalAwardOf fbs cexRow - baselineAwardOf cexRow)) }
    else cexUser] = _
    rw [if_pos (by decide), hδ]
    have hx : max 0 (cexUser.xp + (fbs - 100)) = 0 := by
      have h5 : cexUser.xp = 5 := rfl
      rw [h5]
      omega
    rw [hx]
    rfl
  set db1 : DB := { cexDb with
      users := (solvedAttemptsFor cexDb cexProblem).foldl (finalizeUserStep fbs) cexDb.users,
      attempts := cexDb.attempts.map (fun r =>
        if r.problemId == cexProblem.id && r.solved then finalizedRow fbs r else r),
      problems := cexDb.problems.map (fun p => if p.id == cexProblem.id then
        { p with baseScore := fbs, isFinalized := true } else p) } with hdb1
  have husers1 : db1.users = [{ id := "u1", discordId := "d1", xp := 0 }] := hus1
  have hatt1 : db1.attempts = [finalizedRow fbs cexRow] := by
    show [cexRow].map (fun r =>
      if r.problemId == cexProblem.id && r.solved then finalizedRow fbs r else r) = _
    rw [List.map_cons, List.map_nil, if_pos (by decide)]
  have hprob1 : db1.problems = [{ cexProblem with baseScore := fbs, isFinalized := true }] := by
    show [cexProblem].map (fun p => if p.id == cexProblem.id then
      { p with baseScore := fbs, isFinalized := true } else p) = _
    rw [List.map_cons, List.map_nil, if_pos (by decide)]
  have hfind1 : db1.problems.find? (fun p => p.number == "8") =
      some { cexProblem with baseScore := fbs, isFinalized := true } := by
    rw [hprob1]
    rfl
  have hids1 : (db1.attempts.map (fun a => a.id)).Nodup := by
    rw [hatt1]
    exact List.nodup_singleton _
  have h2 := unfinalize_ok_spec db1 "8" { cexProblem with baseScore := fbs, isFinalized := true }
    hfind1 rfl hids1
  have hsnap2 : solvedAttemptsFor db1 { cexProblem with baseScore := fbs, isFinalized := true } =
      [finalizedRow fbs cexRow] := by
    unfold solvedAttemptsFor
    rw [hatt1]
    rfl
  have hδ2 : finalizeDeltaOf fbs cexRow = fbs - 100 := by
    unfold finalizeDeltaOf
    rw [if_neg (by rw [hbase]; norm_num), hδ]
  have hfd : (finalizedRow fbs cexRow).finalizeDelta = fbs - 100 := hδ2
  have hrow1pre : (finalizedRow fbs cexRow).preFinalizeAwardedXp = some 100 := rfl
  have hus2 : (solvedAttemptsFor db1
      { cexProblem with baseScore := fbs, isFinalized := true }).foldl
      unfinalizeUserStep db1.users = [{ id := "u1", discordId := "d1", xp := 100 - fbs }] := by
    rw [hsnap2, husers1]
    show unfinalizeUserStep [{ id := "u1", discordId := "d1", xp := 0 }]
      (finalizedRow fbs cexRow) = _
    unfold unfinalizeUserStep
    rw [hrow1pre]
    dsimp only []
    rw [if_pos (by rw [hfd]; omega)]
    unfold adjustUsersList
    rw [if_neg (by rw [hfd]; omega)]
    have hfindu2 : ([{ id := "u1", discordId := "d1", xp := 0 }] : List User).find?
        (fun u => u.id == (finalizedRow fbs cexRow).userId) =
        some { id := "u1", discordId := "d1", xp := 0 } := rfl
    rw [hfindu2]
    dsimp only []
    rw [List.map_cons, List.map_nil, if_pos (by decide), hfd]
    have hx2 : max 0 ((0 : Int) + -(fbs - 100)) = 100 - fbs := by omega
    rw [hx2]
  refine ⟨_, db1, _, _, h1, h2, rfl, ?_⟩
  intro u hu
  dsimp only [] at hu
  rw [hus2] at hu
  rcases List.mem_singleton.mp hu with rfl
  show 74 ≤ 100 - fbs
  omega

/-- Claim C1 witness: the amended round-trip theorem instantiated on the
concrete state `exOpenDb` (problem #5, no solved rows, one user), where
every hypothesis is discharged by computation. -/
theorem C1_witness :
    ∃ r1 db1 r2 db2,
      finalizeProblemScoring "5" exOpenDb = Except.ok (r1, db1) ∧
      unfinalizeProblemScoring "5" db1 = Except.ok (r2, db2) ∧
      db2.users = exOpenDb.users ∧
      db2.attempts.map (fun a => (a.id, a.awardedXp)) =
        exOpenDb.attempts.map (fun a => (a.id, a.awardedXp)) :=
  C1_theorem exOpenDb "5" exOpenProblem rfl rfl (by decide) (by decide) (by decide)
    (by decide) (by decide) (by decide)

/-! ### Claim C2 -/

/-- Claim C2 counterexample: the recomputed base score of the spec's
scenario is `dynamicBaseScore(1.8) = 25` — the raw curve value ≈ 20.4 is
clamped up to the minimum of 25 — and not approximately 32 as the claim
states (it is not even within 5 of 32). -/
theorem C2_counterexample :
    getDynamicBaseFromWeightedSolves (9/5) = 25 ∧
    ¬ (27 ≤ getDynamicBaseFromWeightedSolves (9/5)) := by
  refine ⟨getDynamicBase_nine_fifths, ?_⟩
  rw [getDynamicBase_nine_fifths]
  norm_num

/-- Claim C2 (amended): replaying the scenario on problem #7
(`originalBaseScore = 100`, no prior attempts): user B's wrong first
attempt, then user A's correct first attempt awarding 100 XP, then user
B's correct second attempt awarding `⌊100·0.8⌋ = 80` XP; the weighted
solves total is `1 + 0.8 = 9/5` and the recomputed base score equals
`dynamicBaseScore(9/5)`, whose value is 25 (the curve value ≈ 20.4 is
clamped to the minimum) — not ≈ 32. -/
theorem C2_theorem :
    recordAttempt exNoSheet "B" "7" false exDb0 = .ok (exR1, exDb1) ∧
    recordAttempt exNoSheet "A" "7" true exDb1 = .ok (exR2, exDb2) ∧
    exR2.awardedXP = 100 ∧
    recordAttempt exNoSheet "B" "7" true exDb2 = .ok (exR3, exDb3) ∧
    exR3.awardedXP = 80 ∧
    exR3.weightedSolves = 9/5 ∧
    exR3.currentBaseScore = getDynamicBaseFromWeightedSolves (9/5) ∧
    exR3.currentBaseScore = 25 := by
  refine ⟨exTrace1, exTrace2, rfl, exTrace3, rfl, rfl, rfl, ?_⟩
  show getDynamicBaseFromWeightedSolves (9/5) = 25
  exact getDynamicBase_nine_fifths

/-! ### Claim C3 -/

/-- Claim C3 counterexample: with internal id `ghost` matching no user,
`adjustUserXPByDbId` returns with the state unchanged instead of failing
with NotFound; the strict behaviour the claim requires (shown on the
spec-modelled variant) would be an error. -/
theorem C3_counterexample :
    exLoneUserDb.users.find? (fun u => u.id == "ghost") = none ∧
    adjustUserXPByDbId "ghost" 5 exLoneUserDb = exLoneUserDb ∧
    adjustUserXPByDbIdStrictSpec "ghost" 5 exLoneUserDb = .error (.notFound "ghost") :=
  ⟨rfl, rfl, rfl⟩

/-- Claim C3 (amended): both call paths are lenient about a missing
user.  The id-based entry point (`addXP`/`removeXP`) never throws: it
creates the user and writes the clamped balance.  The internal-key
variant (`adjustUserXPByDbId`) also never fails: when no user carries
the internal id it returns with the state unchanged, for every delta. -/
theorem C3_theorem :
    (∀ (db : DB) (userId : String) (delta : Int),
      db.users.find? (fun u => u.id == userId) = none →
      adjustUserXPByDbId userId delta db = db) ∧
    (∀ (db : DB) (discordId : String) (amount : Int),
      db.users.find? (fun u => u.discordId == discordId) = none →
      ∃ u : User, (addXP discordId amount db).2.users.find?
          (fun x => x.discordId == discordId) = some u ∧ u.xp = max 0 amount) := by
  constructor
  · intro db userId delta h
    unfold adjustUserXPByDbId
    rcases eq_or_ne delta 0 with h0 | h0
    · rw [if_pos h0]
    · rw [if_neg h0, h]
  · intro db discordId amount h
    unfold addXP getOrCreateUser
    rw [h]
    simp only []
    set u0 : User := { id := "u" ++ toString db.nextUserId, discordId := discordId, xp := 0 }
      with hu0
    set g : User → User :=
      fun u => if u.discordId == discordId then { u with xp := max 0 (u0.xp + amount) } else u
      with hg
    refine ⟨g u0, ?_, ?_⟩
    · have hkey : ∀ a : User, ((g a).discordId == discordId) = (a.discordId == discordId) := by
        intro a
        by_cases hq : a.discordId = discordId
        · simp [hg, hq]
        · simp [hg, hq]
      rw [find?_map_of_key g (fun x => x.discordId == discordId) hkey]
      rw [find?_append_none h]
      simp [hu0]
    · simp [hg, hu0]

/-- Claim C3 witness: the amended theorem applied at a concrete state
with no user of internal id `u9`. -/
theorem C3_witness :
    exLoneUserDb.users.find? (fun u => u.id == "u9") = none ∧
    adjustUserXPByDbId "u9" (-3) exLoneUserDb = exLoneUserDb := by
  have h : exLoneUserDb.users.find? (fun u => u.id == "u9") = none := rfl
  exact ⟨h, C3_theorem.1 exLoneUserDb "u9" (-3) h⟩

/-! ### Claim C4 -/

/-- Claim C4: the finalization state machine rejects wrong-state calls
with the right typed failure and no state change: on a finalized problem
`recordAttempt` fails with `FinalizedProblemError` and
`finalizeProblemScoring` with `AlreadyFinalized`; on a non-finalized
problem `unfinalizeProblemScoring` fails with `NotFinalized`; in each
case the resulting state is the old one (`runOp` is the identity). -/
theorem C4_theorem :
    (∀ (sheet : String → Option Int) (userId : String) (isCorrect : Bool) (db : DB)
        (n : String) (prob : Problem),
      db.problems.find? (fun p => p.number == n) = some prob →
      prob.isFinalized = true →
      recordAttempt sheet userId n isCorrect db = .error (.finalizedProblem n) ∧
      runOp sheet db (.recordAttemptOp userId n isCorrect) = db ∧
      finalizeProblemScoring n db = .error (.alreadyFinalized n) ∧
      runOp sheet db (.finalizeOp n) = db) ∧
    (∀ (sheet : String → Option Int) (db : DB) (n : String) (prob : Problem),
      db.problems.find? (fun p => p.number == n) = some prob →
      prob.isFinalized = false →
      unfinalizeProblemScoring n db = .error (.notFinalized n) ∧
      runOp sheet db (.unfinalizeOp n) = db) := by
  constructor
  · intro sheet userId isCorrect db n prob hfind hfin
    have hrec : recordAttempt sheet userId n isCorrect db = .error (.finalizedProblem n) := by
      unfold recordAttempt
      rw [hfind]
      unfold recordAttemptCore
      simp [hfin]
    have hfinz : finalizeProblemScoring n db = .error (.alreadyFinalized n) := by
      unfold finalizeProblemScoring
      rw [hfind]
      simp [hfin]
    refine ⟨hrec, ?_, hfinz, ?_⟩
    · simp [runOp, hrec]
    · simp [runOp, hfinz]
  · intro sheet db n prob hfind hfin
    have hunf : unfinalizeProblemScoring n db = .error (.notFinalized n) := by
      unfold unfinalizeProblemScoring
      rw [hfind]
      simp [hfin]
    refine ⟨hunf, ?_⟩
    simp [runOp, hunf]

/-- Claim C4 witness: the theorem applied to the finalized problem #9
and to the open problem #7 of the concrete scenario. -/
theorem C4_witness :
    recordAttempt exNoSheet "B" "9" true exFinalizedDb = .error (.finalizedProblem "9") ∧
    finalizeProblemScoring "9" exFinalizedDb = .error (.alreadyFinalized "9") ∧
    runOp exNoSheet exFinalizedDb (.finalizeOp "9") = exFinalizedDb ∧
    unfinalizeProblemScoring "7" exDb0 = .error (.notFinalized "7") := by
  have h1 := C4_theorem.1 exNoSheet "B" true exFinalizedDb "9" exFinalizedProblem rfl rfl
  have h2 := C4_theorem.2 exNoSheet exDb0 "7" exProblem7 rfl rfl
  exact ⟨h1.1, h1.2.2.1, h1.2.2.2, h2.1⟩

/-! ### Claim C9 -/

/-- Claim C9: for an existing problem, `resetProblemStats` deletes all
of the problem's `UserAttempt` rows, zeroes its counters, restores
`baseScore` to `originalBaseScore` when the latter is positive (keeping
the current `baseScore` otherwise), and leaves every user row — in
particular every XP balance — untouched. -/
theorem C9_theorem (db : DB) (n : String) (prob : Problem)
    (hfind : db.problems.find? (fun p => p.number == n) = some prob) :
    ∃ res db1, resetProblemStats n db = .ok (res, db1) ∧
      db1.attempts = db.attempts.filter (fun a => !(a.problemId == prob.id)) ∧
      db1.users = db.users ∧
      db1.problems = db.problems.map (fun p => if p.id == prob.id then
        { p with attempts := 0, solves := 0,
                 baseScore := if prob.originalBaseScore > 0 then prob.originalBaseScore
                              else prob.baseScore } else p) ∧
      res.problemNumber = prob.number ∧
      res.originalBaseScore = prob.originalBaseScore ∧
      res.currentBaseScore = (if prob.originalBaseScore > 0 then prob.originalBaseScore
                              else prob.baseScore) ∧
      res.clearedUserAttempts =
        db.attempts.length - (db.attempts.filter (fun a => !(a.problemId == prob.id))).length := by
  unfold resetProblemStats
  rw [hfind]
  exact ⟨_, _, rfl, rfl, rfl, rfl, rfl, rfl, rfl, rfl⟩

/-- Claim C9 witness: reset on the concrete problem #7 with two attempt
rows; the users table (with both XP balances) survives unchanged. -/
theorem C9_witness :
    exResetDb.problems.find? (fun p => p.number == "7") = some exResetProblem ∧
    (∃ res db1, resetProblemStats "7" exResetDb = .ok (res, db1) ∧
      db1.users = exResetDb.users ∧ db1.attempts = [] ∧
      res.currentBaseScore = 100) := by
  have h : exResetDb.problems.find? (fun p => p.number == "7") = some exResetProblem := rfl
  obtain ⟨res, db1, hok, hatt, husers, _, _, _, hbase, _⟩ := C9_theorem exResetDb "7" exResetProblem h
  refine ⟨h, res, db1, hok, husers, ?_, ?_⟩
  · rw [hatt]
    rfl
  · rw [hbase]
    rfl

/-! ### Claim C10 -/

/-- Claim C10: finalizing an existing, unfinalized problem with no
solved attempt rows succeeds, freezes the problem at the curve value for
zero weighted solves, touches no attempt rows and no users, and reports
`weightedSolves = 0`, `adjustedUsers = 0`, `initializedUsers = 0`. -/
theorem C10_theorem (db : DB) (n : String) (prob : Problem)
    (hfind : db.problems.find? (fun p => p.number == n) = some prob)
    (hnf : prob.isFinalized = false)
    (hsolved : db.attempts.filter (fun a => a.problemId == prob.id && a.solved) = []) :
    finalizeProblemScoring n db = .ok
      ({ problemNumber := prob.number,
         finalBaseScore := getDynamicBaseFromWeightedSolves 0, weightedSolves := 0,
         adjustedUsers := 0, initializedUsers := 0 },
       { db with problems := db.problems.map (fun p => if p.id == prob.id then
           { p with baseScore := getDynamicBaseFromWeightedSolves 0, isFinalized := true }
         else p) }) := by
  unfold finalizeProblemScoring
  rw [hfind]
  simp [hnf, hsolved]

/-- Claim C10 witness: finalizing problem #5, whose only attempt row is
unsolved. -/
theorem C10_witness :
    exOpenDb.attempts.filter (fun a => a.problemId == exOpenProblem.id && a.solved) = [] ∧
    finalizeProblemScoring "5" exOpenDb = .ok
      ({ problemNumber := "5", finalBaseScore := getDynamicBaseFromWeightedSolves 0,
         weightedSolves := 0, adjustedUsers := 0, initializedUsers := 0 },
       { exOpenDb with problems := exOpenDb.problems.map (fun p => if p.id == exOpenProblem.id then
           { p with baseScore := getDynamicBaseFromWeightedSolves 0, isFinalized := true }
         else p) }) := by
  have hs : exOpenDb.attempts.filter (fun a => a.problemId == exOpenProblem.id && a.solved) = [] :=
    rfl
  exact ⟨hs, C10_theorem exOpenDb "5" exOpenProblem rfl rfl hs⟩

/-! ### Re-solving an already-solved row -/

/-- `find?` over a key-preserving row map, with the image computed. -/
theorem find?_of_map_key_found {α : Type} (g : α → α) (q : α → Bool)
    (hq : ∀ a, q (g a) = q a) {l : List α} {a b : α}
    (h : l.find? q = some a) (hg : g a = b) : (l.map g).find? q = some b := by
  rw [find?_map_of_key g q hq l, h]
  show some (g a) = some b
  rw [hg]

/-- Forward characterization of the `recordAttempt` tail on a correct
attempt whose user/problem row already exists: afterwards the problem is
still found under its number (not finalized, same original base), its
solve counter matches the result, the user is still found by external
id, and the row is found and solved. -/
theorem afterBackfill_post_found (uid n : String) (prob : Problem) (db0 dbA : DB) (u : User)
    (ua : UserAttempt)
    (hgu : getOrCreateUser uid db0 = (u, dbA))
    (hub : dbA.users.find? (fun x => x.discordId == uid) = some u)
    (hfindA : dbA.problems.find? (fun p => p.number == n) = some prob)
    (hnf : prob.isFinalized = false)
    (hrow : dbA.attempts.find?
      (fun a => a.userId == u.id && a.problemId == prob.id) = some ua) :
    ∃ prob2 u2 row2,
      (recordAttemptAfterBackfill uid true prob db0).2.problems.find?
        (fun p => p.number == n) = some prob2 ∧
      prob2.isFinalized = false ∧
      prob2.originalBaseScore = prob.originalBaseScore ∧
      prob2.solves = (recordAttemptAfterBackfill uid true prob db0).1.totalProblemSolves ∧
      (recordAttemptAfterBackfill uid true prob db0).2.users.find?
        (fun x => x.discordId == uid) = some u2 ∧
      (recordAttemptAfterBackfill uid true prob db0).2.attempts.find?
        (fun a => a.userId == u2.id && a.problemId == prob2.id) = some row2 ∧
      row2.solved = true := by
  unfold recordAttemptAfterBackfill
  rw [hgu]
  dsimp only []
  rw [hrow]
  dsimp only []
  simp only [Bool.or_true, Bool.true_and]
  by_cases hsol : ua.solved = true
  · simp only [hsol, Bool.not_true, Bool.false_eq_true, if_false, add_zero]
    refine ⟨{ prob with
        attempts := prob.attempts + 1, solves := prob.solves,
        baseScore := getDynamicBaseFromWeightedSolves
          (((dbA.attempts.map (fun a => if a.id == ua.id then
              { a with
                attempts := ua.attempts + 1, solved := true }
            else a)).filter (fun a => a.problemId == prob.id && a.solved)).map
            (fun a => getSolveWeight a.attempts)).sum },
      u,
      { ua with
        attempts := ua.attempts + 1, solved := true },
      ?_, hnf, rfl, rfl, hub, ?_, rfl⟩
    · apply find?_of_map_key_found
      · intro p
        by_cases hp : (p.id == prob.id) = true
        · rw [if_pos hp]
        · rw [if_neg hp]
      · apply find?_of_map_key_found
        · intro p
          by_cases hp : (p.id == prob.id) = true
          · rw [if_pos hp]
          · rw [if_neg hp]
        · exact hfindA
        · rfl
      · simp only [beq_self_eq_true, if_true]
    · apply find?_of_map_key_found
      · intro a
        by_cases hp : (a.id == ua.id) = true
        · rw [if_pos hp]
        · rw [if_neg hp]
      · exact hrow
      · simp only [beq_self_eq_true, if_true]
  · have hsolf : ua.solved = false := by
      cases hx : ua.solved
      · rfl
      · exact absurd hx hsol
    simp only [hsolf, Bool.not_false, if_true]
    unfold addXP getOrCreateUser
    dsimp only []
    rw [hub]
    dsimp only []
    have hud : (u.discordId == uid) = true := by simpa using List.find?_some hub
    refine ⟨{ prob with
        attempts := prob.attempts + 1, solves := prob.solves + 1,
        baseScore := getDynamicBaseFromWeightedSolves
          (((dbA.attempts.map (fun a => if a.id == ua.id then
              { a with
                attempts := ua.attempts + 1, solved := true }
            else a)).filter (fun a => a.problemId == prob.id && a.solved)).map
            (fun a => getSolveWeight a.attempts)).sum },
      { u with
        xp := max 0 (u.xp +
          ⌊((if prob.originalBaseScore > 0 then prob.originalBaseScore
            else prob.baseScore : Int) : ℚ) * getSolveWeight (ua.attempts + 1)⌋) },
      { ua with
        attempts := ua.attempts + 1, solved := true,
        awardedXp := ⌊((if prob.originalBaseScore > 0 then prob.originalBaseScore
          else prob.baseScore : Int) : ℚ) * getSolveWeight (ua.attempts + 1)⌋ },
      ?_, hnf, rfl, rfl, ?_, ?_, rfl⟩
    · apply find?_of_map_key_found
      · intro p
        by_cases hp : (p.id == prob.id) = true
        · rw [if_pos hp]
        · rw [if_neg hp]
      · apply find?_of_map_key_found
        · intro p
          by_cases hp : (p.id == prob.id) = true
          · rw [if_pos hp]
          · rw [if_neg hp]
        · exact hfindA
        · rfl
      · simp only [beq_self_eq_true, if_true]
    · apply find?_of_map_key_found
      · intro x
        by_cases hx : (x.discordId == uid) = true
        · rw [if_pos hx]
        · rw [if_neg hx]
      · exact hub
      · rw [if_pos hud]
    · apply find?_of_map_key_found
      · intro a
        by_cases hp : (a.id == ua.id) = true
        · rw [if_pos hp]
        · rw [if_neg hp]
      · apply find?_of_map_key_found
        · intro a
          by_cases hp : (a.id == ua.id) = true
          · rw [if_pos hp]
          · rw [if_neg hp]
        · exact hrow
        · rfl
      · simp only [beq_self_eq_true, if_true]

/-- Forward characterization of the `recordAttempt` tail on a correct
attempt with no existing user/problem row: a fresh row is created and
solved, and the same post-state facts hold as in the existing-row
case. -/
theorem afterBackfill_post_none (uid n : String) (prob : Problem) (db0 dbA : DB) (u : User)
    (hgu : getOrCreateUser uid db0 = (u, dbA))
    (hub : dbA.users.find? (fun x => x.discordId == uid) = some u)
    (hfindA : dbA.problems.find? (fun p => p.number == n) = some prob)
    (hnf : prob.isFinalized = false)
    (hrow : dbA.attempts.find?
      (fun a => a.userId == u.id && a.problemId == prob.id) = none) :
    ∃ prob2 u2 row2,
      (recordAttemptAfterBackfill uid true prob db0).2.problems.find?
        (fun p => p.number == n) = some prob2 ∧
      prob2.isFinalized = false ∧
      prob2.originalBaseScore = prob.originalBaseScore ∧
      prob2.solves = (recordAttemptAfterBackfill uid true prob db0).1.totalProblemSolves ∧
      (recordAttemptAfterBackfill uid true prob db0).2.users.find?
        (fun x => x.discordId == uid) = some u2 ∧
      (recordAttemptAfterBackfill uid true prob db0).2.attempts.find?
        (fun a => a.userId == u2.id && a.problemId == prob2.id) = some row2 ∧
      row2.solved = true := by
  unfold recordAttemptAfterBackfill
  rw [hgu]
  dsimp only []
  rw [hrow]
  dsimp only []
  simp only [Bool.or_true, Bool.not_false, Bool.and_true, Bool.true_and, if_true, zero_add]
  unfold addXP getOrCreateUser
  dsimp only []
  rw [hub]
  dsimp only []
  have hud : (u.discordId == uid) = true := by simpa using List.find?_some hub
  have hfr : (dbA.attempts ++ [({ id := "a" ++ toString dbA.nextAttemptId, userId := u.id, problemId := prob.id, attempts := 0, solved := false, awardedXp := 0, preFinalizeAwardedXp := none, finalizeDelta := 0 } : UserAttempt)]).find?
      (fun a => a.userId == u.id && a.problemId == prob.id) = some
      { id := "a" ++ toString dbA.nextAttemptId, userId := u.id, problemId := prob.id, attempts := 0, solved := false, awardedXp := 0, preFinalizeAwardedXp := none, finalizeDelta := 0 } := by
    rw [find?_append_none hrow]
    simp [List.find?]
  refine ⟨{ prob with
      attempts := prob.attempts + 1, solves := prob.solves + 1,
      baseScore := getDynamicBaseFromWeightedSolves
        ((((dbA.attempts ++ [({ id := "a" ++ toString dbA.nextAttemptId, userId := u.id, problemId := prob.id, attempts := 0, solved := false, awardedXp := 0, preFinalizeAwardedXp := none, finalizeDelta := 0 } : UserAttempt)]).map
          (fun a => if a.id == ("a" ++ toString dbA.nextAttemptId) then
            { a with
              attempts := 1, solved := true }
          else a)).filter (fun a => a.problemId == prob.id && a.solved)).map
          (fun a => getSolveWeight a.attempts)).sum },
    { u with
      xp := max 0 (u.xp +
        ⌊((if prob.originalBaseScore > 0 then prob.originalBaseScore
          else prob.baseScore : Int) : ℚ) * getSolveWeight 1⌋) },
    { id := "a" ++ toString dbA.nextAttemptId, userId := u.id, problemId := prob.id, attempts := 1, solved := true, awardedXp := ⌊((if prob.originalBaseScore > 0 then prob.originalBaseScore else prob.baseScore : Int) : ℚ) * getSolveWeight 1⌋, preFinalizeAwardedXp := none, finalizeDelta := 0 },
    ?_, hnf, rfl, rfl, ?_, ?_, rfl⟩
  · apply find?_of_map_key_found
    · intro p
      by_cases hp : (p.id == prob.id) = true
      · rw [if_pos hp]
      · rw [if_neg hp]
    · apply find?_of_map_key_found
      · intro p
        by_cases hp : (p.id == prob.id) = true
        · rw [if_pos hp]
        · rw [if_neg hp]
      · exact hfindA
      · rfl
    · simp only [beq_self_eq_true, if_true]
  · apply find?_of_map_key_found
    · intro x
      by_cases hx : (x.discordId == uid) = true
      · rw [if_pos hx]
      · rw [if_neg hx]
    · exact hub
    · rw [if_pos hud]
  · apply find?_of_map_key_found
    · intro a
      by_cases hp : (a.id == ("a" ++ toString dbA.nextAttemptId)) = true
      · rw [if_pos hp]
      · rw [if_neg hp]
    · apply find?_of_map_key_found
      · intro a
        by_cases hp : (a.id == ("a" ++ toString dbA.nextAttemptId)) = true
        · rw [if_pos hp]
        · rw [if_neg hp]
      · exact hfr
      · rfl
    · simp only [beq_self_eq_true, if_true]

/-- Any successful correct attempt (on a found, unfinalized problem with
a positive original base score) leaves the state ready for the
idempotence argument: the problem is still found under its number (not
finalized, same original base, solve counter matching the result), the
user is found by external id, and the user's row for the problem is
found and solved. -/
theorem recordAttempt_true_post (sheet : String → Option Int) (uid n : String) (db : DB)
    (prob : Problem)
    (hfind : db.problems.find? (fun p => p.number == n) = some prob)
    (hnf : prob.isFinalized = false)
    (hpos : 0 < prob.originalBaseScore) :
    ∃ r1 db1 prob2 u2 row2,
      recordAttempt sheet uid n true db = Except.ok (r1, db1) ∧
      db1.problems.find? (fun p => p.number == n) = some prob2 ∧
      prob2.isFinalized = false ∧
      prob2.originalBaseScore = prob.originalBaseScore ∧
      prob2.solves = r1.totalProblemSolves ∧
      db1.users.find? (fun x => x.discordId == uid) = some u2 ∧
      db1.attempts.find? (fun a => a.userId == u2.id && a.problemId == prob2.id) = some row2 ∧
      row2.solved = true := by
  unfold recordAttempt
  rw [hfind]
  dsimp only []
  unfold recordAttemptCore
  rw [if_neg (by simp [hnf]), if_neg (by omega)]
  cases hgu : db.users.find? (fun x => x.discordId == uid) with
  | some u =>
    have hu : getOrCreateUser uid db = (u, db) := by
      unfold getOrCreateUser
      rw [hgu]
    cases hrow : db.attempts.find? (fun a => a.userId == u.id && a.problemId == prob.id) with
    | some ua =>
      obtain ⟨p2, u2, r2, ha, hf2, ho, hs, hb, hc, hsv⟩ :=
        afterBackfill_post_found uid n prob db db u ua hu hgu hfind hnf hrow
      exact ⟨_, _, p2, u2, r2, rfl, ha, hf2, ho, hs, hb, hc, hsv⟩
    | none =>
      obtain ⟨p2, u2, r2, ha, hf2, ho, hs, hb, hc, hsv⟩ :=
        afterBackfill_post_none uid n prob db db u hu hgu hfind hnf hrow
      exact ⟨_, _, p2, u2, r2, rfl, ha, hf2, ho, hs, hb, hc, hsv⟩
  | none =>
    have hu : getOrCreateUser uid db = (({ id := "u" ++ toString db.nextUserId, discordId := uid, xp := 0 } : User), { db with users := db.users ++ [({ id := "u" ++ toString db.nextUserId, discordId := uid, xp := 0 } : User)], nextUserId := db.nextUserId + 1 }) := by
      unfold getOrCreateUser
      rw [hgu]
    have hub2 : ({ db with users := db.users ++ [({ id := "u" ++ toString db.nextUserId, discordId := uid, xp := 0 } : User)], nextUserId := db.nextUserId + 1 } : DB).users.find? (fun x => x.discordId == uid) = some ({ id := "u" ++ toString db.nextUserId, discordId := uid, xp := 0 } : User) := by
      show (db.users ++ [({ id := "u" ++ toString db.nextUserId, discordId := uid, xp := 0 } : User)]).find? (fun x => x.discordId == uid) = _
      rw [find?_append_none hgu]
      simp [List.find?]
    cases hrow : db.attempts.find? (fun a => a.userId == ("u" ++ toString db.nextUserId) && a.problemId == prob.id) with
    | some ua =>
      obtain ⟨p2, u2, r2, ha, hf2, ho, hs, hb, hc, hsv⟩ :=
        afterBackfill_post_found uid n prob db _ _ ua hu hub2 hfind hnf hrow
      exact ⟨_, _, p2, u2, r2, rfl, ha, hf2, ho, hs, hb, hc, hsv⟩
    | none =>
      obtain ⟨p2, u2, r2, ha, hf2, ho, hs, hb, hc, hsv⟩ :=
        afterBackfill_post_none uid n prob db _ _ hu hub2 hfind hnf hrow
      exact ⟨_, _, p2, u2, r2, rfl, ha, hf2, ho, hs, hb, hc, hsv⟩

/-- A `recordAttempt` call with `isCorrect = true` against a state whose
row for this user/problem is already solved awards nothing, leaves the
solve counter at the stored value, and performs no ledger write. -/
theorem recordAttempt_resolve_noop (sheet : String → Option Int) (uid n : String) (db1 : DB)
    (prob2 : Problem) (u2 : User) (row2 : UserAttempt)
    (ha : db1.problems.find? (fun p => p.number == n) = some prob2)
    (hnf2 : prob2.isFinalized = false)
    (hpos2 : 0 < prob2.originalBaseScore)
    (hb : db1.users.find? (fun u => u.discordId == uid) = some u2)
    (hc : db1.attempts.find?
      (fun a => a.userId == u2.id && a.problemId == prob2.id) = some row2)
    (hsolved : row2.solved = true) :
    ∃ r2 db2, recordAttempt sheet uid n true db1 = Except.ok (r2, db2) ∧
      r2.awardedXP = 0 ∧ r2.totalProblemSolves = prob2.solves ∧ db2.users = db1.users := by
  unfold recordAttempt
  rw [ha]
  dsimp only []
  unfold recordAttemptCore
  rw [if_neg (by simp [hnf2]), if_neg (by omega)]
  unfold recordAttemptAfterBackfill getOrCreateUser
  rw [hb]
  dsimp only []
  rw [hc]
  dsimp only []
  simp only [hsolved, Bool.or_true, Bool.true_and, Bool.not_true, Bool.and_false,
    Bool.false_eq_true, if_false]
  refine ⟨_, _, rfl, rfl, ?_, rfl⟩
  show prob2.solves + 0 = prob2.solves
  omega

/-! ### Claim C5 -/

/-- Claim C5: `recordAttempt` is idempotent with respect to solving —
after a first call with `isCorrect = true` succeeds (on a found,
unfinalized problem with positive original base score), a second call
with `isCorrect = true` for the same user and problem succeeds, returns
`awardedXP = 0` and `totalProblemSolves` unchanged from the first call,
and performs no mutation of any user's xp balance. -/
theorem C5_theorem (sheet : String → Option Int) (uid n : String) (db : DB) (prob : Problem)
    (hfind : db.problems.find? (fun p => p.number == n) = some prob)
    (hnf : prob.isFinalized = false)
    (hpos : 0 < prob.originalBaseScore) :
    ∃ r1 db1 r2 db2,
      recordAttempt sheet uid n true db = Except.ok (r1, db1) ∧
      recordAttempt sheet uid n true db1 = Except.ok (r2, db2) ∧
      r2.awardedXP = 0 ∧
      r2.totalProblemSolves = r1.totalProblemSolves ∧
      db2.users = db1.users := by
  obtain ⟨r1, db1, p2, u2, row2, h1, ha, hf2, ho, hs, hb, hc, hsv⟩ :=
    recordAttempt_true_post sheet uid n db prob hfind hnf hpos
  obtain ⟨r2, db2, h2, hz, ht, husers⟩ :=
    recordAttempt_resolve_noop sheet uid n db1 p2 u2 row2 ha hf2 (by omega) hb hc hsv
  refine ⟨r1, db1, r2, db2, h1, h2, hz, ?_, husers⟩
  rw [ht, hs]

/-- Claim C5 witness: the idempotence theorem instantiated on the
concrete state `exOpenDb` (problem #5, original base 60, user A not yet
on file), with every hypothesis discharged by computation. -/
theorem C5_witness :
    ∃ r1 db1 r2 db2,
      recordAttempt exNoSheet "A" "5" true exOpenDb = Except.ok (r1, db1) ∧
      recordAttempt exNoSheet "A" "5" true db1 = Except.ok (r2, db2) ∧
      r2.awardedXP = 0 ∧
      r2.totalProblemSolves = r1.totalProblemSolves ∧
      db2.users = db1.users :=
  C5_theorem exNoSheet "A" "5" exOpenDb exOpenProblem rfl rfl (by decide)

/-! ### Claim C6 -/

/-- Claim C6 counterexample: the fallback base for the award is the
*stale* stored `baseScore` (as read at the start of the call), not the
dynamic score recomputed for this attempt.  In the stale-score scenario
the award is `⌊34·1⌋ = 34`, while the recomputed dynamic score reported
in the same result gives `⌊dynamicBaseScore(1)·1⌋ ≤ 26`. -/
theorem C6_counterexample :
    ∃ r db', recordAttempt exSheet0 "A" "1" true exStaleDb = Except.ok (r, db') ∧
      r.awardedXP = 34 ∧
      ⌊(r.currentBaseScore : ℚ) * getSolveWeight r.attemptNumber⌋ ≤ 26 ∧
      ⌊(r.currentBaseScore : ℚ) * getSolveWeight r.attemptNumber⌋ ≠ r.awardedXP := by
  have hsw : getSolveWeight 1 = 1 := by
    simp [getSolveWeight, getWrongAttempts, SCORE_DECAY, MAX_WRONG_ATTEMPTS]
  have hcurve : ⌊((getDynamicBaseFromWeightedSolves 1 : Int) : ℚ) * getSolveWeight 1⌋ =
      getDynamicBaseFromWeightedSolves 1 := by
    rw [hsw, mul_one, Int.floor_intCast]
  have hle := getDynamicBase_one_le
  refine ⟨exStaleR, exStaleDb1, ?_, rfl, ?_, ?_⟩
  · simp [recordAttempt, recordAttemptCore, recordAttemptAfterBackfill, getOrCreateUser,
      addXP, exSheet0, exStaleDb, exStaleProblem, exStaleR, exStaleDb1, getSolveWeight,
      getWrongAttempts, SCORE_DECAY, MAX_WRONG_ATTEMPTS, List.find?, List.filter,
      show "u" ++ toString 1 = "u1" from rfl, show "a" ++ toString 1 = "a1" from rfl]
  · show ⌊((getDynamicBaseFromWeightedSolves 1 : Int) : ℚ) * getSolveWeight 1⌋ ≤ 26
    rw [hcurve]
    exact hle
  · show ⌊((getDynamicBaseFromWeightedSolves 1 : Int) : ℚ) * getSolveWeight 1⌋ ≠ 34
    rw [hcurve]
    omega

/-- Claim C6 (amended): on every first-time solve, `recordAttempt`
awards `⌊baseForAward · solveWeight(attemptsAtSolveTime)⌋`, where
`baseForAward` is `originalBaseScore` when positive and otherwise the
problem's *stored* `baseScore` as read at the start of the call — not
the dynamic score recomputed for this attempt (see the counterexample).
The award is applied to the user's ledger through `addXP`, persisted as
`awardedXp` on the row, and returned in the result. -/
theorem C6_theorem (uid : String) (problem : Problem) (db0 : DB) (dbUser : User) (db1 : DB)
    (row : UserAttempt)
    (hu : getOrCreateUser uid db0 = (dbUser, db1))
    (hfound : db1.attempts.find?
      (fun a => a.userId == dbUser.id && a.problemId == problem.id) = some row)
    (hunsolved : row.solved = false) :
    ∃ r db', recordAttemptAfterBackfill uid true problem db0 = (r, db') ∧
      r.awardedXP = ⌊((if problem.originalBaseScore > 0 then problem.originalBaseScore
        else problem.baseScore : Int) : ℚ) * getSolveWeight (row.attempts + 1)⌋ ∧
      r.attemptNumber = row.attempts + 1 ∧
      ∃ dbMid : DB,
        db' = { (addXP uid r.awardedXP dbMid).2 with
          attempts := (addXP uid r.awardedXP dbMid).2.attempts.map
            (fun a => if a.id == row.id then { a with awardedXp := r.awardedXP } else a) } ∧
        dbMid.users = db1.users ∧
        r.userXP = (addXP uid r.awardedXP dbMid).1 := by
  unfold recordAttemptAfterBackfill
  rw [hu]
  dsimp only []
  rw [hfound]
  dsimp only []
  simp only [hunsolved, Bool.not_false, Bool.true_and, Bool.or_true, if_true]
  exact ⟨_, _, rfl, rfl, rfl, _, rfl, rfl, rfl⟩

/-- Claim C6 witness: the amended award theorem instantiated on the
concrete state `exOpenDb`, whose user `u0` has an unsolved row on
problem #5, with every hypothesis discharged by computation. -/
theorem C6_witness :
    ∃ r db', recordAttemptAfterBackfill "B" true exOpenProblem exOpenDb = (r, db') ∧
      r.awardedXP = ⌊((if exOpenProblem.originalBaseScore > 0 then
        exOpenProblem.originalBaseScore else exOpenProblem.baseScore : Int) : ℚ) *
        getSolveWeight (2 + 1)⌋ ∧
      r.attemptNumber = 2 + 1 ∧
      ∃ dbMid : DB,
        db' = { (addXP "B" r.awardedXP dbMid).2 with
          attempts := (addXP "B" r.awardedXP dbMid).2.attempts.map
            (fun a => if a.id == "a0" then { a with awardedXp := r.awardedXP } else a) } ∧
        dbMid.users = exOpenDb.users ∧
        r.userXP = (addXP "B" r.awardedXP dbMid).1 :=
  C6_theorem "B" exOpenProblem exOpenDb { id := "u0", discordId := "B", xp := 12 } exOpenDb
    { id := "a0", userId := "u0", problemId := "p5", attempts := 2, solved := false,
      awardedXp := 0, preFinalizeAwardedXp := none, finalizeDelta := 0 } rfl rfl rfl

/-! ### Legacy rows and the finalize ledger fold -/

/-- Legacy rows (zero baseline) are skipped by the finalize ledger fold. -/
theorem foldl_skip_legacy (fbs : Int) (L : List UserAttempt) (us : List User) :
    L.foldl (finalizeUserStep fbs) us =
    (L.filter (fun a => !(isLegacyRow a))).foldl (finalizeUserStep fbs) us := by
  induction L generalizing us with
  | nil => rfl
  | cons a t ih =>
    rw [List.foldl_cons, List.filter_cons]
    by_cases h : isLegacyRow a = true
    · have h0 : baselineAwardOf a = 0 := by
        have := h
        unfold isLegacyRow at this
        exact of_decide_eq_true this
      have hstep : finalizeUserStep fbs us a = us := by
        unfold finalizeUserStep
        rw [if_pos h0]
      rw [hstep, if_neg (by simp [h]), ih]
    · rw [if_pos (by simp [h]), List.foldl_cons, ih]

/-- `adjustUserXPByDbId` for one internal id leaves lookups of any other
internal id unchanged. -/
theorem lookupUser_adjustUsersList_ne (userId : String) (delta : Int) (us : List User)
    (uid : String) (h : userId ≠ uid) :
    lookupUser (adjustUsersList userId delta us) uid = lookupUser us uid := by
  unfold adjustUsersList
  by_cases hδ : delta = 0
  · rw [if_pos hδ]
  · rw [if_neg hδ]
    cases hf : us.find? (fun u => u.id == userId) with
    | none => rfl
    | some user =>
      unfold lookupUser
      rw [find?_map_of_key _ (fun u => u.id == uid)
        (by
          intro u
          by_cases hu : (u.id == userId) = true
          · rw [if_pos hu]
          · rw [if_neg hu]) us]
      cases hfu : us.find? (fun u => u.id == uid) with
      | none => rfl
      | some u =>
        have hid : u.id = uid := by simpa using List.find?_some hfu
        have hne : (u.id == userId) = false := by
          rw [hid]
          exact beq_false_of_ne (fun he => h he.symm)
        show some (if (u.id == userId) = true then
          { u with xp := max 0 (user.xp + delta) } else u) = some u
        rw [if_neg (by simp [hne])]

/-- The finalize ledger fold leaves lookups of a user none of whose rows
are in the snapshot unchanged. -/
theorem lookupUser_foldl_finalize_ne (fbs : Int) (L : List UserAttempt) (us : List User)
    (uid : String) (h : ∀ a ∈ L, a.userId ≠ uid) :
    lookupUser (L.foldl (finalizeUserStep fbs) us) uid = lookupUser us uid := by
  induction L generalizing us with
  | nil => rfl
  | cons a t ih =>
    rw [List.foldl_cons]
    rw [ih (finalizeUserStep fbs us a) (fun x hx => h x (List.mem_cons_of_mem a hx))]
    unfold finalizeUserStep
    by_cases h0 : baselineAwardOf a = 0
    · rw [if_pos h0]
    · rw [if_neg h0]
      by_cases hδ : finalAwardOf fbs a - baselineAwardOf a ≠ 0
      · rw [if_pos hδ]
        exact lookupUser_adjustUsersList_ne a.userId _ us uid (h a (List.mem_cons_self a t))
      · rw [if_neg hδ]

/-! ### Claim C7 -/

/-- Claim C7: during finalize, every solved row with a zero baseline
award is treated as an initialize: it is rewritten with
`preFinalizeAwardedXp = some 0`, `awardedXp = finalAward`,
`finalizeDelta = 0`; legacy rows are counted in `initializedUsers` and
never in `adjustedUsers`; and the ledger fold skips legacy rows, so a
user touched only by legacy rows keeps their exact ledger entry. -/
theorem C7_theorem (db : DB) (n : String) (prob : Problem)
    (hfind : db.problems.find? (fun p => p.number == n) = some prob)
    (hnf : prob.isFinalized = false)
    (hids : (db.attempts.map (fun a => a.id)).Nodup) :
    ∃ r db1, finalizeProblemScoring n db = Except.ok (r, db1) ∧
      r.initializedUsers = ((solvedAttemptsFor db prob).countP isLegacyRow : Int) ∧
      r.adjustedUsers =
        ((solvedAttemptsFor db prob).countP (isAdjustedRow (finalBaseOf db prob)) : Int) ∧
      (∀ a, isLegacyRow a = true → isAdjustedRow (finalBaseOf db prob) a = false) ∧
      (∀ a ∈ db.attempts, a.problemId = prob.id → a.solved = true → baselineAwardOf a = 0 →
        finalizedRow (finalBaseOf db prob) a ∈ db1.attempts ∧
        (finalizedRow (finalBaseOf db prob) a).preFinalizeAwardedXp = some 0 ∧
        (finalizedRow (finalBaseOf db prob) a).awardedXp =
          finalAwardOf (finalBaseOf db prob) a ∧
        (finalizedRow (finalBaseOf db prob) a).finalizeDelta = 0) ∧
      (∀ uid : String,
        (∀ a ∈ solvedAttemptsFor db prob, isLegacyRow a = false → a.userId ≠ uid) →
        lookupUser db1.users uid = lookupUser db.users uid) := by
  refine ⟨_, _, finalize_ok_spec db n prob hfind hnf hids, rfl, rfl, ?_, ?_, ?_⟩
  · intro a h
    have h0 : (baselineAwardOf a == 0) = true := h
    unfold isAdjustedRow
    rw [h0]
    rfl
  · intro a ha hpid hsol h0
    refine ⟨?_, ?_, rfl, ?_⟩
    · have himg : (if a.problemId == prob.id && a.solved then
          finalizedRow (finalBaseOf db prob) a else a) =
          finalizedRow (finalBaseOf db prob) a := by
        rw [if_pos (by simp [hpid, hsol])]
      rw [← himg]
      exact List.mem_map_of_mem _ ha
    · show some (baselineAwardOf a) = some 0
      rw [h0]
    · show finalizeDeltaOf (finalBaseOf db prob) a = 0
      unfold finalizeDeltaOf
      rw [if_pos h0]
  · intro uid hu
    show lookupUser ((solvedAttemptsFor db prob).foldl
      (finalizeUserStep (finalBaseOf db prob)) db.users) uid = lookupUser db.users uid
    rw [foldl_skip_legacy]
    apply lookupUser_foldl_finalize_ne
    intro a ha
    have hm := List.mem_filter.mp ha
    exact hu a hm.1 (by simpa using hm.2)

/-- Claim C7 witness: on the legacy-row state, finalize reports one
initialized user and zero adjusted users, rewrites the legacy row as an
initialize, and keeps the user's ledger entry (12 XP) unchanged. -/
theorem C7_witness :
    ∃ r db1, finalizeProblemScoring "3" exLegacyDb = Except.ok (r, db1) ∧
      r.initializedUsers =
        ((solvedAttemptsFor exLegacyDb exLegacyProblem).countP isLegacyRow : Int) ∧
      r.adjustedUsers = ((solvedAttemptsFor exLegacyDb exLegacyProblem).countP
        (isAdjustedRow (finalBaseOf exLegacyDb exLegacyProblem)) : Int) ∧
      (∀ a, isLegacyRow a = true →
        isAdjustedRow (finalBaseOf exLegacyDb exLegacyProblem) a = false) ∧
      (∀ a ∈ exLegacyDb.attempts, a.problemId = exLegacyProblem.id → a.solved = true →
        baselineAwardOf a = 0 →
        finalizedRow (finalBaseOf exLegacyDb exLegacyProblem) a ∈ db1.attempts ∧
        (finalizedRow (finalBaseOf exLegacyDb exLegacyProblem) a).preFinalizeAwardedXp =
          some 0 ∧
        (finalizedRow (finalBaseOf exLegacyDb exLegacyProblem) a).awardedXp =
          finalAwardOf (finalBaseOf exLegacyDb exLegacyProblem) a ∧
        (finalizedRow (finalBaseOf exLegacyDb exLegacyProblem) a).finalizeDelta = 0) ∧
      (∀ uid : String,
        (∀ a ∈ solvedAttemptsFor exLegacyDb exLegacyProblem, isLegacyRow a = false →
          a.userId ≠ uid) →
        lookupUser db1.users uid = lookupUser exLegacyDb.users uid) :=
  C7_theorem exLegacyDb "3" exLegacyProblem rfl rfl (by decide)

/-! ### Claim C8 -/

/-- Claim C8: every user's xp balance is non-negative in every reachable
state: each XP-mutating operation (addXP, removeXP, the internal-key
adjustment, recordAttempt's award, finalize, unfinalize; reset touches
no balances) computes new balances as `max 0 (current + delta)`, so
non-negativity is preserved by every sequence of operations from any
state satisfying it. -/
theorem C8_theorem (sheet : String → Option Int) (ops : List Op) (db : DB)
    (h : AllXpNonneg db) : AllXpNonneg (ops.foldl (runOp sheet) db) := by
  induction ops generalizing db with
  | nil => exact h
  | cons op rest ih => exact ih (runOp sheet db op) (runOp_nonneg sheet db op h)

/-- Claim C8 witness: a concrete run (remove more XP than the balance,
add some, adjust by a large negative delta) from a concrete state keeps
all balances non-negative. -/
theorem C8_witness :
    AllXpNonneg exLoneUserDb ∧
    AllXpNonneg ([Op.removeXPOp "B" 100, Op.addXPOp "B" 3,
      Op.adjustOp "u0" (-50)].foldl (runOp (fun _ => none)) exLoneUserDb) :=
  ⟨by decide, C8_theorem (fun _ => none) [Op.removeXPOp "B" 100, Op.addXPOp "B" 3,
    Op.adjustOp "u0" (-50)] exLoneUserDb (by decide)⟩

end XpSystem
